import Mathlib

set_option linter.dupNamespace false

/-!
# Calendar value type `DateTime` (Source/Engine/Core/Types/DateTime.cpp)

A shallow embedding of the calendar arithmetic of `DateTime.cpp`.

* `int32` / `int64` values are integers; every arithmetic operation of the
  source is followed by an explicit two's-complement wrap (`wrap32`, `wrap64`),
  and C++ `/` and `%` are the truncating `Int.tdiv` and `Int.tmod`.
* Code that can stop on `ASSERT_LOW_LAYER` or index a table returns
  `Except Fault _`.
* An instant is represented by its single field `Ticks`.
-/

namespace DateTime

/-- Ways in which a call can stop without producing a value. -/
inductive Fault where
  /-- an `ASSERT_LOW_LAYER` condition evaluated to false -/
  | assertion
  /-- a constant table was indexed outside its bounds -/
  | outOfBounds
  deriving DecidableEq, Repr

deriving instance DecidableEq for Except

/-- Two's-complement reduction of an integer to the `int32` range. -/
def wrap32 (x : Int) : Int := (x + 2147483648) % 4294967296 - 2147483648

/-- Two's-complement reduction of an integer to the `int64` range. -/
def wrap64 (x : Int) : Int :=
  (x + 9223372036854775808) % 18446744073709551616 - 9223372036854775808

/-- Line 9: `DaysPerMonth[] = { 0, 31, 28, 31, 30, 31, 30, 31, 31, 30, 31, 30, 31 }`. -/
def DaysPerMonth : List Int := [0, 31, 28, 31, 30, 31, 30, 31, 31, 30, 31, 30, 31]

/-- Line 10: `DaysToMonth[] = { 0, 31, 59, 90, 120, 151, 181, 212, 243, 273, 304, 334, 365 }`. -/
def DaysToMonth : List Int := [0, 31, 59, 90, 120, 151, 181, 212, 243, 273, 304, 334, 365]

/-- Reading `table[i]`; an index outside the array is reported as a fault. -/
def tableAt (table : List Int) (i : Int) : Except Fault Int :=
  if 0 ≤ i then
    match table.get? i.toNat with
    | some v => .ok v
    | none => .error .outOfBounds
  else .error .outOfBounds

/-- Lines 109-116: `IsLeapYear`. -/
def IsLeapYear (year : Int) : Bool :=
  if Int.tmod year 4 = 0 then
    (Int.tmod year 100 != 0) || (Int.tmod year 400 == 0)
  else
    false

/-- Lines 96-102: `DaysInMonth`, with the assertion of line 98 enabled. -/
def DaysInMonth (year month : Int) : Except Fault Int :=
  if month ≥ 1 ∧ month ≤ 12 then
    if month = 2 ∧ IsLeapYear year = true then .ok 29
    else tableAt DaysPerMonth month
  else .error .assertion

/-- Lines 104-107: `DaysInYear`. -/
def DaysInYear (year : Int) : Int := if IsLeapYear year then 366 else 365

/-- Lines 132-141: `Validate`.  The operands of `&&` are evaluated left to right
and evaluation stops at the first false one, so `DaysInMonth` is called only
after the five comparisons before it succeeded. -/
def Validate (year month day hour minute second millisecond : Int) : Except Fault Bool :=
  if year ≥ 1 ∧ year ≤ 9999 ∧ month ≥ 1 ∧ month ≤ 12 ∧ day ≥ 1 then
    match DaysInMonth year month with
    | .error e => .error e
    | .ok dim =>
      .ok (decide (day ≤ dim ∧ hour ≥ 0 ∧ hour ≤ 23 ∧ minute ≥ 0 ∧ minute ≤ 59 ∧
        second ≥ 0 ∧ second ≤ 59 ∧ millisecond ≥ 0 ∧ millisecond ≤ 999))
  else .ok false

/-- Modelled from the spec: the constants `Constants::TicksPerMillisecond`,
`TicksPerSecond`, `TicksPerMinute`, `TicksPerHour` and `TicksPerDay` are declared
outside `DateTime.cpp`.  Section 3 of the specification requires them to be
compile-time constants "consistent with a 24-hour, 60-minute, 60-second,
1000-millisecond calendar", which leaves the number of ticks in a millisecond
as the only free quantity. -/
structure Constants where
  /-- number of ticks in one millisecond -/
  TicksPerMillisecond : Int

namespace Constants

/-- Ticks in a second: 1000 milliseconds. -/
def TicksPerSecond (c : Constants) : Int := 1000 * c.TicksPerMillisecond

/-- Ticks in a minute: 60 seconds. -/
def TicksPerMinute (c : Constants) : Int := 60 * c.TicksPerSecond

/-- Ticks in an hour: 60 minutes. -/
def TicksPerHour (c : Constants) : Int := 60 * c.TicksPerMinute

/-- Ticks in a day: 24 hours. -/
def TicksPerDay (c : Constants) : Int := 24 * c.TicksPerHour

/-- Modelled from the spec: a tick is a positive fraction of a millisecond, and
the tick count of every instant of the years 1..9999 (3652059 days) is
representable in the signed 64-bit field `Ticks`. -/
def Admissible (c : Constants) : Prop :=
  0 < c.TicksPerMillisecond ∧ 3652059 * c.TicksPerDay ≤ 9223372036854775808

instance (c : Constants) : Decidable c.Admissible := by
  unfold Admissible; infer_instance

end Constants

/-- Lines 12-26: the constructor `DateTime::DateTime(year, month, day, hour,
minute, second, millisecond)` with the assertion of line 14 enabled.  The result
is the value stored in the field `Ticks`.  `totalDays`, `year` and `month` are
`int32`; the products of lines 21-25 are formed in `int64` because the tick
constants are `int64`. -/
def DateTime (c : Constants) (year month day hour minute second millisecond : Int) :
    Except Fault Int :=
  match Validate year month day hour minute second millisecond with
  | .error e => .error e
  | .ok false => .error .assertion
  | .ok true =>
    let totalDays : Int := 0
    let totalDays := if month > 2 ∧ IsLeapYear year = true then wrap32 (totalDays + 1) else totalDays
    let year := wrap32 (year - 1)
    let month := wrap32 (month - 1)
    match tableAt DaysToMonth month with
    | .error e => .error e
    | .ok toMonth =>
      let sum := wrap32 (wrap32 (year * 365) + wrap32 (Int.tdiv year 4))
      let sum := wrap32 (sum - wrap32 (Int.tdiv year 100))
      let sum := wrap32 (sum + wrap32 (Int.tdiv year 400))
      let sum := wrap32 (sum + toMonth)
      let sum := wrap32 (sum + day)
      let sum := wrap32 (sum - 1)
      let totalDays := wrap32 (totalDays + sum)
      .ok (wrap64 (wrap64 (wrap64 (wrap64 (wrap64 (totalDays * c.TicksPerDay)
        + wrap64 (hour * c.TicksPerHour))
        + wrap64 (minute * c.TicksPerMinute))
        + wrap64 (second * c.TicksPerSecond))
        + wrap64 (millisecond * c.TicksPerMillisecond)))

/-- Modelled from the spec: `GetJulianDay` is declared outside `DateTime.cpp`.
Section 4.1: "Compute the Julian Day Number from the instant (whole-day portion
plus a fixed Julian offset for the epoch)"; the offset of the epoch
0001-01-01T00:00 is 1721425.5.  This is the whole number `GetJulianDay() + 0.5`,
that is the whole-day portion `Ticks / TicksPerDay` plus 1721426. -/
def JulianDayPlusHalf (c : Constants) (Ticks : Int) : Int :=
  Int.tdiv Ticks c.TicksPerDay + 1721426

/-- Line 34, `static_cast<float>(x)` for a whole number `x`: the nearest value
with a 24-bit significand (IEEE 754 binary32, ties to the even significand).
`ulp` is the spacing of the binary32 values around `x`; it is 1 as long as
`|x| < 2^24`. -/
def castToFloat (x : Int) : Int :=
  let ulp : Int := 2 ^ (Nat.log2 x.natAbs + 1 - 24)
  let q := x / ulp
  let r := x % ulp
  if 2 * r < ulp ∨ (2 * r = ulp ∧ q % 2 = 0) then q * ulp else (q + 1) * ulp

/-- Line 34, `Math::FloorToInt` on a whole number `x`: the floor is `x` itself,
converted to `int32`. -/
def FloorToInt (x : Int) : Int := wrap32 x

/-- Lines 28-48: `GetDate`; the result is `(year, month, day)`. -/
def GetDate (c : Constants) (Ticks : Int) : Int × Int × Int :=
  let l := wrap32 (FloorToInt (castToFloat (JulianDayPlusHalf c Ticks)) + 68569)
  let n := wrap32 (Int.tdiv (wrap32 (4 * l)) 146097)
  let l := wrap32 (l - wrap32 (Int.tdiv (wrap32 (wrap32 (146097 * n) + 3)) 4))
  let i := wrap32 (Int.tdiv (wrap32 (4000 * wrap32 (l + 1))) 1461001)
  let l := wrap32 (wrap32 (l - wrap32 (Int.tdiv (wrap32 (1461 * i)) 4)) + 31)
  let j := wrap32 (Int.tdiv (wrap32 (80 * l)) 2447)
  let k := wrap32 (l - wrap32 (Int.tdiv (wrap32 (2447 * j)) 80))
  let l := wrap32 (Int.tdiv j 11)
  let j := wrap32 (wrap32 (j + 2) - wrap32 (12 * l))
  let i := wrap32 (wrap32 (wrap32 (100 * wrap32 (n - 49)) + i) + l)
  (i, j, k)

/-- Modelled from the spec: the accessor `GetHour` is declared outside
`DateTime.cpp`; it returns the "24-hour hour extracted from ticks",
`(Ticks / TicksPerHour) % 24`. -/
def GetHour (c : Constants) (Ticks : Int) : Int :=
  wrap32 (Int.tmod (Int.tdiv Ticks c.TicksPerHour) 24)

/-- Modelled from the spec: the accessor `GetMinute` is declared outside
`DateTime.cpp`; it is `(Ticks / TicksPerMinute) % 60`. -/
def GetMinute (c : Constants) (Ticks : Int) : Int :=
  wrap32 (Int.tmod (Int.tdiv Ticks c.TicksPerMinute) 60)

/-- Modelled from the spec: the accessor `GetSecond` is declared outside
`DateTime.cpp`; it is `(Ticks / TicksPerSecond) % 60`. -/
def GetSecond (c : Constants) (Ticks : Int) : Int :=
  wrap32 (Int.tmod (Int.tdiv Ticks c.TicksPerSecond) 60)

/-- Modelled from the spec: the enumeration `DayOfWeek` is declared outside
`DateTime.cpp`; its members are Monday = 0, ..., Sunday = 6. -/
inductive DayOfWeek where
  | Monday | Tuesday | Wednesday | Thursday | Friday | Saturday | Sunday
  deriving DecidableEq, Repr

/-- The enumerator with a given underlying value, if there is one. -/
def DayOfWeek.ofValue (v : Int) : Option DayOfWeek :=
  if v = 0 then some .Monday
  else if v = 1 then some .Tuesday
  else if v = 2 then some .Wednesday
  else if v = 3 then some .Thursday
  else if v = 4 then some .Friday
  else if v = 5 then some .Saturday
  else if v = 6 then some .Sunday
  else none

/-- Line 60: the integer `(Ticks / Constants::TicksPerDay) % 7` that is cast to
`DayOfWeek`, computed in `int64`. -/
def GetDayOfWeekValue (c : Constants) (Ticks : Int) : Int :=
  Int.tmod (Int.tdiv Ticks c.TicksPerDay) 7

/-- Lines 57-61: `GetDayOfWeek`; `none` when the value cast to the enumeration
is not the value of an enumerator. -/
def GetDayOfWeek (c : Constants) (Ticks : Int) : Option DayOfWeek :=
  DayOfWeek.ofValue (GetDayOfWeekValue c Ticks)

/-- Lines 67-68: the loop of `GetDayOfYear`.  The first argument counts the
iterations that remain; the loop variable `currentMonth` runs from 1 while
`currentMonth < month`, which is `month - 1` iterations (none if `month <= 1`). -/
def GetDayOfYearLoop (year : Int) : Nat → Int → Int → Except Fault Int
  | 0, _, day => .ok day
  | n + 1, currentMonth, day =>
    match DaysInMonth year currentMonth with
    | .error e => .error e
    | .ok dim => GetDayOfYearLoop year n (wrap32 (currentMonth + 1)) (wrap32 (day + dim))

/-- Lines 63-70: `GetDayOfYear`. -/
def GetDayOfYear (c : Constants) (Ticks : Int) : Except Fault Int :=
  let (year, month, day) := GetDate c Ticks
  GetDayOfYearLoop year (month - 1).toNat 1 day

/-- Lines 72-80: `GetHour12`. -/
def GetHour12 (c : Constants) (Ticks : Int) : Int :=
  let hour := GetHour c Ticks
  if hour < 1 then 12
  else if hour > 12 then wrap32 (hour - 12)
  else hour

/-- Modelled from the spec: `String::Format` is a generic formatter declared
outside `DateTime.cpp`.  This is its replacement field `{i}` without format
specification, as used for the year in the format string of line 152: the
argument as decimal text. -/
def formatDecimal (x : Int) : List Char := (toString x).data

/-- Modelled from the spec: the replacement field `{i:0>2}` of the format string
of line 152, the "zero-padded to width 2" of section 6: the decimal text of the
argument, right-aligned in a field of width 2 that is filled with `0`. -/
def formatPadded2 (x : Int) : List Char :=
  let text := formatDecimal x
  List.replicate (2 - text.length) '0' ++ text

/-- Lines 148-153: `ToFileNameString`, with the format string
`{0}_{1:0>2}_{2:0>2}_{3:0>2}_{4:0>2}_{5:0>2}`. -/
def ToFileNameString (c : Constants) (Ticks : Int) : String :=
  let (year, month, day) := GetDate c Ticks
  String.mk (formatDecimal year ++ '_' :: formatPadded2 month ++ '_' :: formatPadded2 day
    ++ '_' :: formatPadded2 (GetHour c Ticks) ++ '_' :: formatPadded2 (GetMinute c Ticks)
    ++ '_' :: formatPadded2 (GetSecond c Ticks))

/-- Modelled from the spec: `Platform::GetSystemTime` and `Platform::GetUTCTime`
are declared outside `DateTime.cpp`.  This is the reading they store into their
eight output parameters, in the order of lines 121 and 128. -/
structure ClockReading where
  year : Int
  month : Int
  dayOfWeek : Int
  day : Int
  hour : Int
  minute : Int
  second : Int
  millisecond : Int

/-- Lines 118-123: `Now`, given the reading of `Platform::GetSystemTime`. -/
def Now (c : Constants) (GetSystemTime : ClockReading) : Except Fault Int :=
  let r := GetSystemTime
  DateTime c r.year r.month r.day r.hour r.minute r.second r.millisecond

/-- Lines 125-130: `NowUTC`, given the reading of `Platform::GetUTCTime`. -/
def NowUTC (c : Constants) (GetUTCTime : ClockReading) : Except Fault Int :=
  let r := GetUTCTime
  DateTime c r.year r.month r.day r.hour r.minute r.second r.millisecond

/-- The `int32` range. -/
def IsInt32 (x : Int) : Prop := -2147483648 ≤ x ∧ x ≤ 2147483647

instance (x : Int) : Decidable (IsInt32 x) := by unfold IsInt32; infer_instance

/-- The `int64` range. -/
def IsInt64 (x : Int) : Prop := -9223372036854775808 ≤ x ∧ x ≤ 9223372036854775807

instance (x : Int) : Decidable (IsInt64 x) := by unfold IsInt64; infer_instance

/-- The value returned by `DaysInMonth`, and 0 when the call stops on its
assertion; used to write sums of month lengths. -/
def DaysInMonthValue (year month : Int) : Int :=
  match DaysInMonth year month with
  | .ok v => v
  | .error _ => 0

/-- Elapsed days from 0001-01-01 to `(year, month, day)` counted naively: the
lengths of all years before `year`, the lengths of all months of `year` before
`month`, and the days of `month` before `day`. -/
def naiveDays (year month day : Int) : Int :=
  (∑ k ∈ Finset.range (year - 1).toNat, DaysInYear (k + 1))
    + (∑ k ∈ Finset.range (month - 1).toNat, DaysInMonthValue year (k + 1))
    + (day - 1)

/-- The range conditions tested by `Validate`, as a proposition. -/
def ValidFields (year month day hour minute second millisecond : Int) : Prop :=
  1 ≤ year ∧ year ≤ 9999 ∧ 1 ≤ month ∧ month ≤ 12 ∧ 1 ≤ day ∧
    day ≤ DaysInMonthValue year month ∧ 0 ≤ hour ∧ hour ≤ 23 ∧ 0 ≤ minute ∧ minute ≤ 59 ∧
    0 ≤ second ∧ second ≤ 59 ∧ 0 ≤ millisecond ∧ millisecond ≤ 999

instance (year month day hour minute second millisecond : Int) :
    Decidable (ValidFields year month day hour minute second millisecond) := by
  unfold ValidFields; infer_instance

/-- The value of `totalDays` after line 20, in exact integer arithmetic. -/
def totalDaysExact (year month day : Int) : Int :=
  (if month > 2 ∧ IsLeapYear year = true then 1 else 0)
    + ((year - 1) * 365 + (year - 1) / 4 - (year - 1) / 100 + (year - 1) / 400
      + DaysToMonth.getD (month - 1).toNat 0 + day - 1)

/-- Lines 34-47 in exact integer arithmetic, started from the whole-day count
`days = Ticks / TicksPerDay`. -/
def dateOfDays (days : Int) : Int × Int × Int :=
  let l := days + 1721426 + 68569
  let n := 4 * l / 146097
  let l := l - (146097 * n + 3) / 4
  let i := 4000 * (l + 1) / 1461001
  let l := l - 1461 * i / 4 + 31
  let j := 80 * l / 2447
  let k := l - 2447 * j / 80
  let l := j / 11
  let j := j + 2 - 12 * l
  let i := 100 * (n - 49) + i + l
  (i, j, k)

/-- Milliseconds from the epoch to the given fields, in exact integer arithmetic. -/
def millisExact (year month day hour minute second millisecond : Int) : Int :=
  totalDaysExact year month day * 86400000 + hour * 3600000 + minute * 60000
    + second * 1000 + millisecond

/-- Days of the year before the first of month `m` (`m` in 1..13), `L` being 1
in a leap year and 0 otherwise. -/
def monthStart (L m : Int) : Int :=
  if m ≤ 2 then 31 * (m - 1) else (153 * (m - 3) + 2) / 5 + 59 + L

/-- Days from 0001-01-01 to the first of January of year `y`. -/
def yearStart (y : Int) : Int :=
  (y - 1) * 365 + (y - 1) / 4 - (y - 1) / 100 + (y - 1) / 400

/-- The leap day count of a year: 1 in a leap year, 0 otherwise. -/
def leapDay (y : Int) : Int := if IsLeapYear y = true then 1 else 0

/-- Strict lexicographic order on field tuples
`(year, month, day, hour, minute, second, millisecond)`: the first tuple is
before the second. -/
def FieldsBefore (y m d h mi s ms y2 m2 d2 h2 mi2 s2 ms2 : Int) : Prop :=
  y < y2 ∨ (y = y2 ∧ (m < m2 ∨ (m = m2 ∧ (d < d2 ∨ (d = d2 ∧ (h < h2 ∨ (h = h2 ∧
    (mi < mi2 ∨ (mi = mi2 ∧ (s < s2 ∨ (s = s2 ∧ ms < ms2)))))))))))

instance (y m d h mi s ms y2 m2 d2 h2 mi2 s2 ms2 : Int) :
    Decidable (FieldsBefore y m d h mi s ms y2 m2 d2 h2 mi2 s2 ms2) := by
  unfold FieldsBefore; infer_instance

/-- An admissible choice of the tick constants, used for concrete instances:
10000 ticks per millisecond, a tick of 100 nanoseconds. -/
def ticks100ns : Constants := ⟨10000⟩

/-! ## Machine arithmetic -/

theorem wrap32_eq {x : Int} (h1 : -2147483648 ≤ x) (h2 : x ≤ 2147483647) : wrap32 x = x := by
  unfold wrap32; omega

theorem wrap64_eq {x : Int} (h1 : -9223372036854775808 ≤ x) (h2 : x ≤ 9223372036854775807) :
    wrap64 x = x := by
  unfold wrap64; omega

theorem tmod_eq_zero_iff_emod (a b : Int) : Int.tmod a b = 0 ↔ a % b = 0 := by
  constructor
  · intro h; exact Int.emod_eq_zero_of_dvd (Int.dvd_of_tmod_eq_zero h)
  · intro h; exact Int.tmod_eq_zero_of_dvd (Int.dvd_of_emod_eq_zero h)

/-! ## Leap years and month lengths -/

theorem isLeapYear_iff_emod (year : Int) :
    IsLeapYear year = true ↔ year % 4 = 0 ∧ (year % 100 ≠ 0 ∨ year % 400 = 0) := by
  unfold IsLeapYear
  by_cases h4 : Int.tmod year 4 = 0
  · have h4e := (tmod_eq_zero_iff_emod year 4).1 h4
    simp only [h4, if_true, Bool.or_eq_true, bne_iff_ne, ne_eq, beq_iff_eq,
      tmod_eq_zero_iff_emod]
    tauto
  · have h4e : ¬ year % 4 = 0 := fun h => h4 ((tmod_eq_zero_iff_emod year 4).2 h)
    simp [h4, h4e]

theorem daysInMonth_of_range (year month : Int) (h1 : 1 ≤ month) (h2 : month ≤ 12) :
    DaysInMonth year month =
      .ok (if month = 2 ∧ IsLeapYear year = true then 29
        else [31, 28, 31, 30, 31, 30, 31, 31, 30, 31, 30, 31].getD (month - 1).toNat 0) := by
  unfold DaysInMonth
  rw [if_pos ⟨h1, h2⟩]
  by_cases hl : month = 2 ∧ IsLeapYear year = true
  · rw [if_pos hl, if_pos hl]
  · rw [if_neg hl, if_neg hl]
    interval_cases month <;> rfl

theorem daysInMonth_bounds (year month v : Int) (h : DaysInMonth year month = .ok v) :
    1 ≤ month ∧ month ≤ 12 ∧ 28 ≤ v ∧ v ≤ 31 := by
  by_cases hr : month ≥ 1 ∧ month ≤ 12
  · obtain ⟨h1, h2⟩ := hr
    rw [daysInMonth_of_range year month h1 h2] at h
    injection h with h
    subst h
    refine ⟨h1, h2, ?_⟩
    split
    · omega
    · interval_cases month <;> decide
  · unfold DaysInMonth at h
    rw [if_neg hr] at h
    cases h

theorem daysInMonthValue_of_range (year month : Int) (h1 : 1 ≤ month) (h2 : month ≤ 12) :
    DaysInMonthValue year month =
      if month = 2 ∧ IsLeapYear year = true then 29
        else [31, 28, 31, 30, 31, 30, 31, 31, 30, 31, 30, 31].getD (month - 1).toNat 0 := by
  unfold DaysInMonthValue
  rw [daysInMonth_of_range year month h1 h2]

/-! ## Validate -/

theorem validate_true_iff (year month day hour minute second millisecond : Int) :
    Validate year month day hour minute second millisecond = .ok true ↔
      ValidFields year month day hour minute second millisecond := by
  unfold Validate ValidFields
  by_cases h : year ≥ 1 ∧ year ≤ 9999 ∧ month ≥ 1 ∧ month ≤ 12 ∧ day ≥ 1
  · rw [if_pos h]
    obtain ⟨a1, a2, a3, a4, a5⟩ := h
    unfold DaysInMonthValue
    rw [daysInMonth_of_range year month a3 a4]
    simp only [ge_iff_le] at *
    simp only [Except.ok.injEq, decide_eq_true_eq, a1, a2, a3, a4, a5, true_and]
  · rw [if_neg h]
    constructor
    · intro hv; cases hv
    · intro hv
      exact absurd ⟨hv.1, hv.2.1, hv.2.2.1, hv.2.2.2.1, hv.2.2.2.2.1⟩ h

theorem validate_total (year month day hour minute second millisecond : Int) :
    ∃ b, Validate year month day hour minute second millisecond = .ok b := by
  unfold Validate
  by_cases h : year ≥ 1 ∧ year ≤ 9999 ∧ month ≥ 1 ∧ month ≤ 12 ∧ day ≥ 1
  · rw [if_pos h]
    rw [daysInMonth_of_range year month h.2.2.1 h.2.2.2.1]
    exact ⟨_, rfl⟩
  · rw [if_neg h]
    exact ⟨_, rfl⟩

theorem validate_false_iff (year month day hour minute second millisecond : Int) :
    Validate year month day hour minute second millisecond = .ok false ↔
      ¬ ValidFields year month day hour minute second millisecond := by
  obtain ⟨b, hb⟩ := validate_total year month day hour minute second millisecond
  have ht := validate_true_iff year month day hour minute second millisecond
  rw [hb] at ht ⊢
  cases b
  · simp only [true_iff]
    intro hv
    have := ht.2 hv
    cases this
  · constructor
    · intro h; cases h
    · intro h; exact absurd (ht.1 rfl) h

/-! ## The constructor in exact arithmetic -/

theorem daysToMonth_getD (m : Int) (h1 : 1 ≤ m) (h2 : m ≤ 12) :
    tableAt DaysToMonth (m - 1) = .ok (DaysToMonth.getD (m - 1).toNat 0) := by
  interval_cases m <;> rfl

theorem totalDaysExact_bounds (y m d : Int) (hy1 : 1 ≤ y) (hy2 : y ≤ 9999) (hm1 : 1 ≤ m)
    (hm2 : m ≤ 12) (hd1 : 1 ≤ d) (hd2 : d ≤ DaysInMonthValue y m) :
    0 ≤ totalDaysExact y m d ∧ totalDaysExact y m d ≤ 3652058 := by
  rw [daysInMonthValue_of_range y m hm1 hm2] at hd2
  unfold totalDaysExact
  have hl := isLeapYear_iff_emod y
  by_cases hleap : IsLeapYear y = true
  · have hl1 := hl.1 hleap
    simp only [hleap, and_true] at hd2 ⊢
    interval_cases m <;> simp [DaysToMonth] at hd2 ⊢ <;> omega
  · simp only [hleap, and_false, if_false] at hd2 ⊢
    interval_cases m <;> simp [DaysToMonth] at hd2 ⊢ <;> omega

theorem wrap64_scaled (c : Constants) (hc : c.Admissible) (P : Int) (h1 : 0 ≤ P)
    (h2 : P < 315537897600000) :
    wrap64 (c.TicksPerMillisecond * P) = c.TicksPerMillisecond * P := by
  obtain ⟨hpos, hfit⟩ := hc
  simp only [Constants.TicksPerDay, Constants.TicksPerHour, Constants.TicksPerMinute,
    Constants.TicksPerSecond] at hfit
  have hle : c.TicksPerMillisecond * P ≤ c.TicksPerMillisecond * 315537897599999 :=
    Int.mul_le_mul_of_nonneg_left (by omega) (le_of_lt hpos)
  have h0 : 0 ≤ c.TicksPerMillisecond * P := Int.mul_nonneg (le_of_lt hpos) h1
  apply wrap64_eq <;> omega

theorem ticks_exact (c : Constants) (hc : c.Admissible) (D h mi s ms : Int)
    (hD1 : 0 ≤ D) (hD2 : D ≤ 3652058) (hh1 : 0 ≤ h) (hh2 : h ≤ 23) (hmi1 : 0 ≤ mi)
    (hmi2 : mi ≤ 59) (hs1 : 0 ≤ s) (hs2 : s ≤ 59) (hms1 : 0 ≤ ms) (hms2 : ms ≤ 999) :
    wrap64 (wrap64 (wrap64 (wrap64 (wrap64 (D * c.TicksPerDay)
        + wrap64 (h * c.TicksPerHour))
        + wrap64 (mi * c.TicksPerMinute))
        + wrap64 (s * c.TicksPerSecond))
        + wrap64 (ms * c.TicksPerMillisecond))
      = c.TicksPerMillisecond * (D * 86400000 + h * 3600000 + mi * 60000 + s * 1000 + ms) := by
  have e1 : D * c.TicksPerDay = c.TicksPerMillisecond * (D * 86400000) := by
    simp only [Constants.TicksPerDay, Constants.TicksPerHour, Constants.TicksPerMinute,
      Constants.TicksPerSecond]; ring
  have e2 : h * c.TicksPerHour = c.TicksPerMillisecond * (h * 3600000) := by
    simp only [Constants.TicksPerHour, Constants.TicksPerMinute,
      Constants.TicksPerSecond]; ring
  have e3 : mi * c.TicksPerMinute = c.TicksPerMillisecond * (mi * 60000) := by
    simp only [Constants.TicksPerMinute, Constants.TicksPerSecond]; ring
  have e4 : s * c.TicksPerSecond = c.TicksPerMillisecond * (s * 1000) := by
    simp only [Constants.TicksPerSecond]; ring
  have e5 : ms * c.TicksPerMillisecond = c.TicksPerMillisecond * ms := by ring
  rw [e1, e2, e3, e4, e5]
  rw [wrap64_scaled c hc (D * 86400000) (by omega) (by omega),
    wrap64_scaled c hc (h * 3600000) (by omega) (by omega),
    wrap64_scaled c hc (mi * 60000) (by omega) (by omega),
    wrap64_scaled c hc (s * 1000) (by omega) (by omega),
    wrap64_scaled c hc ms (by omega) (by omega)]
  rw [← Int.mul_add, wrap64_scaled c hc _ (by omega) (by omega)]
  rw [← Int.mul_add, wrap64_scaled c hc _ (by omega) (by omega)]
  rw [← Int.mul_add, wrap64_scaled c hc _ (by omega) (by omega)]
  rw [← Int.mul_add, wrap64_scaled c hc _ (by omega) (by omega)]

theorem totalDays_wrapped (y m d : Int) (hy1 : 1 ≤ y) (hy2 : y ≤ 9999) (hm1 : 1 ≤ m)
    (hm2 : m ≤ 12) (hd1 : 1 ≤ d) (hd2 : d ≤ DaysInMonthValue y m) :
    wrap32 ((if m > 2 ∧ IsLeapYear y = true then wrap32 (0 + 1) else 0) +
      wrap32 (wrap32 (wrap32 (wrap32 (wrap32 (wrap32 (wrap32 (wrap32 (y - 1) * 365)
        + wrap32 (Int.tdiv (wrap32 (y - 1)) 4))
        - wrap32 (Int.tdiv (wrap32 (y - 1)) 100))
        + wrap32 (Int.tdiv (wrap32 (y - 1)) 400))
        + DaysToMonth.getD (m - 1).toNat 0) + d) - 1))
      = totalDaysExact y m d := by
  have hb := totalDaysExact_bounds y m d hy1 hy2 hm1 hm2 hd1 hd2
  have hd3 : d ≤ 31 := by
    have := daysInMonth_bounds y m (DaysInMonthValue y m)
      (by unfold DaysInMonthValue; rw [daysInMonth_of_range y m hm1 hm2])
    omega
  have ht : 0 ≤ DaysToMonth.getD (m - 1).toNat 0 ∧ DaysToMonth.getD (m - 1).toNat 0 ≤ 334 := by
    interval_cases m <;> decide
  unfold totalDaysExact at hb ⊢
  generalize DaysToMonth.getD (m - 1).toNat 0 = t at ht hb ⊢
  rw [wrap32_eq (x := y - 1) (by omega) (by omega)]
  rw [Int.tdiv_eq_ediv (by omega) (by omega), Int.tdiv_eq_ediv (by omega) (by omega),
    Int.tdiv_eq_ediv (by omega) (by omega)]
  rw [wrap32_eq (x := 0 + 1) (by omega) (by omega)]
  rw [wrap32_eq (x := (y - 1) * 365) (by omega) (by omega)]
  rw [wrap32_eq (x := (y - 1) / 4) (by omega) (by omega)]
  rw [wrap32_eq (x := (y - 1) / 100) (by omega) (by omega)]
  rw [wrap32_eq (x := (y - 1) / 400) (by omega) (by omega)]
  rw [wrap32_eq (x := (y - 1) * 365 + (y - 1) / 4) (by omega) (by omega)]
  rw [wrap32_eq (x := (y - 1) * 365 + (y - 1) / 4 - (y - 1) / 100) (by omega) (by omega)]
  rw [wrap32_eq (x := (y - 1) * 365 + (y - 1) / 4 - (y - 1) / 100 + (y - 1) / 400)
    (by omega) (by omega)]
  rw [wrap32_eq (x := (y - 1) * 365 + (y - 1) / 4 - (y - 1) / 100 + (y - 1) / 400 + t)
    (by omega) (by omega)]
  rw [wrap32_eq (x := (y - 1) * 365 + (y - 1) / 4 - (y - 1) / 100 + (y - 1) / 400 + t + d)
    (by omega) (by omega)]
  rw [wrap32_eq (x := (y - 1) * 365 + (y - 1) / 4 - (y - 1) / 100 + (y - 1) / 400 + t + d - 1)
    (by omega) (by omega)]
  split
  · rw [wrap32_eq (by omega) (by omega)]; omega
  · rw [wrap32_eq (by omega) (by omega)]

theorem ctor_eq (c : Constants) (hc : c.Admissible) (y m d h mi s ms : Int)
    (hv : ValidFields y m d h mi s ms) :
    DateTime c y m d h mi s ms = .ok (c.TicksPerMillisecond * millisExact y m d h mi s ms) := by
  obtain ⟨hy1, hy2, hm1, hm2, hd1, hd2, hh1, hh2, hmi1, hmi2, hs1, hs2, hms1, hms2⟩ := hv
  have hval := (validate_true_iff y m d h mi s ms).2
    ⟨hy1, hy2, hm1, hm2, hd1, hd2, hh1, hh2, hmi1, hmi2, hs1, hs2, hms1, hms2⟩
  have hb := totalDaysExact_bounds y m d hy1 hy2 hm1 hm2 hd1 hd2
  unfold DateTime
  rw [hval]
  simp only
  rw [wrap32_eq (x := m - 1) (by omega) (by omega), daysToMonth_getD m hm1 hm2]
  simp only
  rw [totalDays_wrapped y m d hy1 hy2 hm1 hm2 hd1 hd2]
  rw [ticks_exact c hc _ h mi s ms hb.1 hb.2 hh1 hh2 hmi1 hmi2 hs1 hs2 hms1 hms2]
  rfl

/-! ## GetDate in exact arithmetic -/

theorem ticksPerDay_eq (c : Constants) : c.TicksPerDay = c.TicksPerMillisecond * 86400000 := by
  simp only [Constants.TicksPerDay, Constants.TicksPerHour, Constants.TicksPerMinute,
    Constants.TicksPerSecond]; ring

theorem ticksPerHour_eq (c : Constants) : c.TicksPerHour = c.TicksPerMillisecond * 3600000 := by
  simp only [Constants.TicksPerHour, Constants.TicksPerMinute, Constants.TicksPerSecond]; ring

theorem ticksPerMinute_eq (c : Constants) : c.TicksPerMinute = c.TicksPerMillisecond * 60000 := by
  simp only [Constants.TicksPerMinute, Constants.TicksPerSecond]; ring

theorem ticksPerSecond_eq (c : Constants) : c.TicksPerSecond = c.TicksPerMillisecond * 1000 := by
  simp only [Constants.TicksPerSecond]; ring

/-- Truncating division of a scaled non-negative count by a scaled unit. -/
theorem tdiv_scaled (T M u : Int) (hT : 0 < T) (hM : 0 ≤ M) (hu : 0 < u) :
    Int.tdiv (T * M) (T * u) = M / u := by
  rw [Int.tdiv_eq_ediv (Int.mul_nonneg (le_of_lt hT) hM)
    (Int.mul_nonneg (le_of_lt hT) (le_of_lt hu))]
  exact Int.mul_ediv_mul_of_pos M u hT

theorem castToFloat_eq (x : Int) (h1 : 0 ≤ x) (h2 : x < 16777216) : castToFloat x = x := by
  have hk : Nat.log2 x.natAbs + 1 - 24 = 0 := by
    by_cases h0 : x.natAbs = 0
    · rw [h0, Nat.log2_zero]
    · have : Nat.log2 x.natAbs < 24 := (Nat.log2_lt h0).2 (by omega)
      omega
  unfold castToFloat
  rw [hk]
  simp

theorem getDate_wrapped (x : Int) (h1 : 0 ≤ x) (h2 : x ≤ 3652058) :
    (let l := wrap32 (FloorToInt (castToFloat (x + 1721426)) + 68569)
     let n := wrap32 (Int.tdiv (wrap32 (4 * l)) 146097)
     let l := wrap32 (l - wrap32 (Int.tdiv (wrap32 (wrap32 (146097 * n) + 3)) 4))
     let i := wrap32 (Int.tdiv (wrap32 (4000 * wrap32 (l + 1))) 1461001)
     let l := wrap32 (wrap32 (l - wrap32 (Int.tdiv (wrap32 (1461 * i)) 4)) + 31)
     let j := wrap32 (Int.tdiv (wrap32 (80 * l)) 2447)
     let k := wrap32 (l - wrap32 (Int.tdiv (wrap32 (2447 * j)) 80))
     let l := wrap32 (Int.tdiv j 11)
     let j := wrap32 (wrap32 (j + 2) - wrap32 (12 * l))
     let i := wrap32 (wrap32 (wrap32 (100 * wrap32 (n - 49)) + i) + l)
     (i, j, k)) = dateOfDays x := by
  rw [castToFloat_eq (x + 1721426) (by omega) (by omega)]
  unfold dateOfDays FloorToInt
  simp (disch := omega) only [wrap32_eq, Int.tdiv_eq_ediv]

theorem getDate_eq (c : Constants) (hc : c.Admissible) (M : Int) (h1 : 0 ≤ M)
    (h2 : M < 315537897600000) :
    GetDate c (c.TicksPerMillisecond * M) = dateOfDays (M / 86400000) := by
  unfold GetDate JulianDayPlusHalf
  rw [ticksPerDay_eq, tdiv_scaled _ _ _ hc.1 h1 (by omega)]
  exact getDate_wrapped (M / 86400000) (by omega) (by omega)

/-! ## The inverse calendar algorithm

The algorithm of Fliegel and van Flandern counts days from a first of March, so
that the leap day is the last day of its year.  `N` is the day count from
0000-03-01, `Y = 400 q + 100 r + 4 p + s` the year beginning in March and `doy`
the day within that year. -/

theorem fliegel_year (N q r p s doy : Int)
    (hr1 : 0 ≤ r) (hr2 : r ≤ 3) (hs1 : 0 ≤ s) (hs2 : s ≤ 3) (hp1 : 0 ≤ p) (hp2 : p ≤ 24)
    (hN : N = 36524 * (4 * q + r) + q + 365 * (4 * p + s) + p + doy)
    (hdoy1 : 0 ≤ doy) (hdoy2 : doy ≤ 365)
    (hleap : doy = 365 → (s = 3 ∧ (p < 24 ∨ r = 3))) :
    4 * (N + 1789689) / 146097 = 4 * q + r + 49 ∧
    4000 * (N + 1789689 - (146097 * (4 * q + r + 49) + 3) / 4 + 1) / 1461001 = 4 * p + s ∧
    N + 1789689 - (146097 * (4 * q + r + 49) + 3) / 4 - 1461 * (4 * p + s) / 4 + 31
      = doy + 31 := by
  have h1 : 146097 * (4 * q + r + 49) ≤ 4 * (N + 1789689) := by omega
  have h2 : 4 * (N + 1789689) < 146097 * (4 * q + r + 49) + 146097 := by omega
  have hl1 : N + 1789689 - (146097 * (4 * q + r + 49) + 3) / 4
      = 365 * (4 * p + s) + p + doy := by omega
  refine ⟨by omega, ?_, ?_⟩
  · rw [hl1]
    have h3 : 1461001 * (4 * p + s) ≤ 4000 * (365 * (4 * p + s) + p + doy + 1) := by omega
    have h4 : 4000 * (365 * (4 * p + s) + p + doy + 1)
        < 1461001 * (4 * p + s) + 1461001 := by omega
    omega
  · rw [hl1]; omega

/-- The inverse algorithm on a day count given in March-based form: `Y` is the
year beginning in March, `doy` the day within it. -/
theorem dateOfDays_march (D Y doy : Int)
    (hD : D + 306 = 365 * Y + Y / 4 - Y / 100 + Y / 400 + doy)
    (hdoy1 : 0 ≤ doy) (hdoy2 : doy ≤ 365)
    (hleap : doy = 365 → ((Y + 1) % 4 = 0 ∧ ((Y + 1) % 100 ≠ 0 ∨ (Y + 1) % 400 = 0))) :
    dateOfDays D =
      (Y + (80 * (doy + 31) / 2447) / 11,
       80 * (doy + 31) / 2447 + 2 - 12 * ((80 * (doy + 31) / 2447) / 11),
       doy + 31 - 2447 * (80 * (doy + 31) / 2447) / 80) := by
  obtain ⟨hn, hi, hl⟩ := fliegel_year (D + 306) (Y / 400) (Y / 100 % 4) (Y % 100 / 4) (Y % 4) doy
    (by omega) (by omega) (by omega) (by omega) (by omega) (by omega) (by omega) hdoy1 hdoy2
    (by omega)
  have e : D + 1721426 + 68569 = D + 306 + 1789689 := by omega
  unfold dateOfDays
  simp only [e, hn, hi, hl]
  refine Prod.ext ?_ (Prod.ext rfl rfl)
  show 100 * (4 * (Y / 400) + Y / 100 % 4 + 49 - 49) + (4 * (Y % 100 / 4) + Y % 4) + _ = _
  omega

/-- The month step of the inverse algorithm, with the value `J` of `j` after
line 39 supplied. -/
theorem dateOfDays_march_month (D Y doy J : Int)
    (hD : D + 306 = 365 * Y + Y / 4 - Y / 100 + Y / 400 + doy)
    (hdoy1 : 0 ≤ doy) (hdoy2 : doy ≤ 365)
    (hleap : doy = 365 → ((Y + 1) % 4 = 0 ∧ ((Y + 1) % 100 ≠ 0 ∨ (Y + 1) % 400 = 0)))
    (hJ1 : 2447 * J ≤ 80 * (doy + 31)) (hJ2 : 80 * (doy + 31) < 2447 * J + 2447) :
    dateOfDays D = (Y + J / 11, J + 2 - 12 * (J / 11), doy + 31 - 2447 * J / 80) := by
  rw [dateOfDays_march D Y doy hD hdoy1 hdoy2 hleap]
  have hJ : 80 * (doy + 31) / 2447 = J := by omega
  rw [hJ]

/-- Decomposing the day count built by the constructor gives back the date.
The year is not restricted: the day count and the inverse algorithm agree on
the whole proleptic calendar. -/
theorem dateOfDays_totalDaysExact (y m d : Int) (hm1 : 1 ≤ m)
    (hm2 : m ≤ 12) (hd1 : 1 ≤ d) (hd2 : d ≤ DaysInMonthValue y m) :
    dateOfDays (totalDaysExact y m d) = (y, m, d) := by
  rw [daysInMonthValue_of_range y m hm1 hm2] at hd2
  have hl := isLeapYear_iff_emod y
  by_cases hleap : IsLeapYear y = true
  · have hl1 := hl.1 hleap
    simp only [hleap, and_true] at hd2
    interval_cases m
    · simp at hd2
      rw [dateOfDays_march_month (totalDaysExact y 1 d) (y - 1) (306 + d - 1) 11
        (by simp [totalDaysExact, DaysToMonth]; omega) (by omega) (by omega)
        (by omega) (by omega) (by omega)]
      refine Prod.ext ?_ (Prod.ext ?_ ?_) <;> simp only <;> omega
    · simp at hd2
      rw [dateOfDays_march_month (totalDaysExact y 2 d) (y - 1) (337 + d - 1) 12
        (by simp [totalDaysExact, DaysToMonth]; omega) (by omega) (by omega)
        (by omega) (by omega) (by omega)]
      refine Prod.ext ?_ (Prod.ext ?_ ?_) <;> simp only <;> omega
    · simp at hd2
      rw [dateOfDays_march_month (totalDaysExact y 3 d) (y) (0 + d - 1) 1
        (by simp [totalDaysExact, DaysToMonth, hleap]; omega) (by omega) (by omega)
        (by omega) (by omega) (by omega)]
      refine Prod.ext ?_ (Prod.ext ?_ ?_) <;> simp only <;> omega
    · simp at hd2
      rw [dateOfDays_march_month (totalDaysExact y 4 d) (y) (31 + d - 1) 2
        (by simp [totalDaysExact, DaysToMonth, hleap]; omega) (by omega) (by omega)
        (by omega) (by omega) (by omega)]
      refine Prod.ext ?_ (Prod.ext ?_ ?_) <;> simp only <;> omega
    · simp at hd2
      rw [dateOfDays_march_month (totalDaysExact y 5 d) (y) (61 + d - 1) 3
        (by simp [totalDaysExact, DaysToMonth, hleap]; omega) (by omega) (by omega)
        (by omega) (by omega) (by omega)]
      refine Prod.ext ?_ (Prod.ext ?_ ?_) <;> simp only <;> omega
    · simp at hd2
      rw [dateOfDays_march_month (totalDaysExact y 6 d) (y) (92 + d - 1) 4
        (by simp [totalDaysExact, DaysToMonth, hleap]; omega) (by omega) (by omega)
        (by omega) (by omega) (by omega)]
      refine Prod.ext ?_ (Prod.ext ?_ ?_) <;> simp only <;> omega
    · simp at hd2
      rw [dateOfDays_march_month (totalDaysExact y 7 d) (y) (122 + d - 1) 5
        (by simp [totalDaysExact, DaysToMonth, hleap]; omega) (by omega) (by omega)
        (by omega) (by omega) (by omega)]
      refine Prod.ext ?_ (Prod.ext ?_ ?_) <;> simp only <;> omega
    · simp at hd2
      rw [dateOfDays_march_month (totalDaysExact y 8 d) (y) (153 + d - 1) 6
        (by simp [totalDaysExact, DaysToMonth, hleap]; omega) (by omega) (by omega)
        (by omega) (by omega) (by omega)]
      refine Prod.ext ?_ (Prod.ext ?_ ?_) <;> simp only <;> omega
    · simp at hd2
      rw [dateOfDays_march_month (totalDaysExact y 9 d) (y) (184 + d - 1) 7
        (by simp [totalDaysExact, DaysToMonth, hleap]; omega) (by omega) (by omega)
        (by omega) (by omega) (by omega)]
      refine Prod.ext ?_ (Prod.ext ?_ ?_) <;> simp only <;> omega
    · simp at hd2
      rw [dateOfDays_march_month (totalDaysExact y 10 d) (y) (214 + d - 1) 8
        (by simp [totalDaysExact, DaysToMonth, hleap]; omega) (by omega) (by omega)
        (by omega) (by omega) (by omega)]
      refine Prod.ext ?_ (Prod.ext ?_ ?_) <;> simp only <;> omega
    · simp at hd2
      rw [dateOfDays_march_month (totalDaysExact y 11 d) (y) (245 + d - 1) 9
        (by simp [totalDaysExact, DaysToMonth, hleap]; omega) (by omega) (by omega)
        (by omega) (by omega) (by omega)]
      refine Prod.ext ?_ (Prod.ext ?_ ?_) <;> simp only <;> omega
    · simp at hd2
      rw [dateOfDays_march_month (totalDaysExact y 12 d) (y) (275 + d - 1) 10
        (by simp [totalDaysExact, DaysToMonth, hleap]; omega) (by omega) (by omega)
        (by omega) (by omega) (by omega)]
      refine Prod.ext ?_ (Prod.ext ?_ ?_) <;> simp only <;> omega
  · have hl1 : ¬ (y % 4 = 0 ∧ (y % 100 ≠ 0 ∨ y % 400 = 0)) := fun h => hleap (hl.2 h)
    simp only [hleap, and_false, if_false] at hd2
    interval_cases m
    · simp at hd2
      rw [dateOfDays_march_month (totalDaysExact y 1 d) (y - 1) (306 + d - 1) 11
        (by simp [totalDaysExact, DaysToMonth]; omega) (by omega) (by omega)
        (by omega) (by omega) (by omega)]
      refine Prod.ext ?_ (Prod.ext ?_ ?_) <;> simp only <;> omega
    · simp at hd2
      rw [dateOfDays_march_month (totalDaysExact y 2 d) (y - 1) (337 + d - 1) 12
        (by simp [totalDaysExact, DaysToMonth]; omega) (by omega) (by omega)
        (by omega) (by omega) (by omega)]
      refine Prod.ext ?_ (Prod.ext ?_ ?_) <;> simp only <;> omega
    · simp at hd2
      rw [dateOfDays_march_month (totalDaysExact y 3 d) (y) (0 + d - 1) 1
        (by simp [totalDaysExact, DaysToMonth, hleap]; omega) (by omega) (by omega)
        (by omega) (by omega) (by omega)]
      refine Prod.ext ?_ (Prod.ext ?_ ?_) <;> simp only <;> omega
    · simp at hd2
      rw [dateOfDays_march_month (totalDaysExact y 4 d) (y) (31 + d - 1) 2
        (by simp [totalDaysExact, DaysToMonth, hleap]; omega) (by omega) (by omega)
        (by omega) (by omega) (by omega)]
      refine Prod.ext ?_ (Prod.ext ?_ ?_) <;> simp only <;> omega
    · simp at hd2
      rw [dateOfDays_march_month (totalDaysExact y 5 d) (y) (61 + d - 1) 3
        (by simp [totalDaysExact, DaysToMonth, hleap]; omega) (by omega) (by omega)
        (by omega) (by omega) (by omega)]
      refine Prod.ext ?_ (Prod.ext ?_ ?_) <;> simp only <;> omega
    · simp at hd2
      rw [dateOfDays_march_month (totalDaysExact y 6 d) (y) (92 + d - 1) 4
        (by simp [totalDaysExact, DaysToMonth, hleap]; omega) (by omega) (by omega)
        (by omega) (by omega) (by omega)]
      refine Prod.ext ?_ (Prod.ext ?_ ?_) <;> simp only <;> omega
    · simp at hd2
      rw [dateOfDays_march_month (totalDaysExact y 7 d) (y) (122 + d - 1) 5
        (by simp [totalDaysExact, DaysToMonth, hleap]; omega) (by omega) (by omega)
        (by omega) (by omega) (by omega)]
      refine Prod.ext ?_ (Prod.ext ?_ ?_) <;> simp only <;> omega
    · simp at hd2
      rw [dateOfDays_march_month (totalDaysExact y 8 d) (y) (153 + d - 1) 6
        (by simp [totalDaysExact, DaysToMonth, hleap]; omega) (by omega) (by omega)
        (by omega) (by omega) (by omega)]
      refine Prod.ext ?_ (Prod.ext ?_ ?_) <;> simp only <;> omega
    · simp at hd2
      rw [dateOfDays_march_month (totalDaysExact y 9 d) (y) (184 + d - 1) 7
        (by simp [totalDaysExact, DaysToMonth, hleap]; omega) (by omega) (by omega)
        (by omega) (by omega) (by omega)]
      refine Prod.ext ?_ (Prod.ext ?_ ?_) <;> simp only <;> omega
    · simp at hd2
      rw [dateOfDays_march_month (totalDaysExact y 10 d) (y) (214 + d - 1) 8
        (by simp [totalDaysExact, DaysToMonth, hleap]; omega) (by omega) (by omega)
        (by omega) (by omega) (by omega)]
      refine Prod.ext ?_ (Prod.ext ?_ ?_) <;> simp only <;> omega
    · simp at hd2
      rw [dateOfDays_march_month (totalDaysExact y 11 d) (y) (245 + d - 1) 9
        (by simp [totalDaysExact, DaysToMonth, hleap]; omega) (by omega) (by omega)
        (by omega) (by omega) (by omega)]
      refine Prod.ext ?_ (Prod.ext ?_ ?_) <;> simp only <;> omega
    · simp at hd2
      rw [dateOfDays_march_month (totalDaysExact y 12 d) (y) (275 + d - 1) 10
        (by simp [totalDaysExact, DaysToMonth, hleap]; omega) (by omega) (by omega)
        (by omega) (by omega) (by omega)]
      refine Prod.ext ?_ (Prod.ext ?_ ?_) <;> simp only <;> omega

/-! ## Round trip -/

theorem millisExact_bounds (y m d h mi s ms : Int) (hv : ValidFields y m d h mi s ms) :
    0 ≤ millisExact y m d h mi s ms ∧ millisExact y m d h mi s ms < 315537897600000 ∧
      millisExact y m d h mi s ms / 86400000 = totalDaysExact y m d := by
  obtain ⟨hy1, hy2, hm1, hm2, hd1, hd2, hh1, hh2, hmi1, hmi2, hs1, hs2, hms1, hms2⟩ := hv
  have hb := totalDaysExact_bounds y m d hy1 hy2 hm1 hm2 hd1 hd2
  unfold millisExact
  omega

theorem getDate_ctor (c : Constants) (hc : c.Admissible) (y m d h mi s ms : Int)
    (hv : ValidFields y m d h mi s ms) :
    GetDate c (c.TicksPerMillisecond * millisExact y m d h mi s ms) = (y, m, d) := by
  obtain ⟨hM1, hM2, hM3⟩ := millisExact_bounds y m d h mi s ms hv
  rw [getDate_eq c hc _ hM1 hM2, hM3]
  exact dateOfDays_totalDaysExact y m d hv.2.2.1 hv.2.2.2.1 hv.2.2.2.2.1 hv.2.2.2.2.2.1

theorem timeOfDay_ctor (c : Constants) (hc : c.Admissible) (y m d h mi s ms : Int)
    (hv : ValidFields y m d h mi s ms) :
    GetHour c (c.TicksPerMillisecond * millisExact y m d h mi s ms) = h ∧
    GetMinute c (c.TicksPerMillisecond * millisExact y m d h mi s ms) = mi ∧
    GetSecond c (c.TicksPerMillisecond * millisExact y m d h mi s ms) = s := by
  obtain ⟨hM1, hM2, hM3⟩ := millisExact_bounds y m d h mi s ms hv
  obtain ⟨hy1, hy2, hm1, hm2, hd1, hd2, hh1, hh2, hmi1, hmi2, hs1, hs2, hms1, hms2⟩ := hv
  unfold GetHour GetMinute GetSecond
  rw [ticksPerHour_eq, ticksPerMinute_eq, ticksPerSecond_eq,
    tdiv_scaled _ _ _ hc.1 hM1 (by omega), tdiv_scaled _ _ _ hc.1 hM1 (by omega),
    tdiv_scaled _ _ _ hc.1 hM1 (by omega),
    Int.tmod_eq_emod (by omega) (by omega), Int.tmod_eq_emod (by omega) (by omega),
    Int.tmod_eq_emod (by omega) (by omega),
    wrap32_eq (by omega) (by omega), wrap32_eq (by omega) (by omega),
    wrap32_eq (by omega) (by omega)]
  unfold millisExact at hM3 ⊢
  generalize totalDaysExact y m d = D at hM3 ⊢
  omega

/-- C1. Round trip: for fields accepted by `Validate`, the constructor produces an
instant whose `GetDate` is exactly `(year, month, day)` and whose hour, minute
and second accessors return exactly `hour`, `minute` and `second`. -/
theorem C1_round_trip (c : Constants) (hc : c.Admissible)
    (year month day hour minute second millisecond : Int)
    (hv : Validate year month day hour minute second millisecond = .ok true) :
    ∃ ticks, DateTime c year month day hour minute second millisecond = .ok ticks ∧
      GetDate c ticks = (year, month, day) ∧
      GetHour c ticks = hour ∧ GetMinute c ticks = minute ∧ GetSecond c ticks = second := by
  have hf := (validate_true_iff _ _ _ _ _ _ _).1 hv
  exact ⟨_, ctor_eq c hc _ _ _ _ _ _ _ hf, getDate_ctor c hc _ _ _ _ _ _ _ hf,
    timeOfDay_ctor c hc _ _ _ _ _ _ _ hf⟩

/-- Witness for C1 at 2020-03-05 09:07:03.250 with 10000 ticks per millisecond. -/
theorem C1_round_trip_witness :
    ticks100ns.Admissible ∧ Validate 2020 3 5 9 7 3 250 = .ok true ∧
    ∃ ticks, DateTime ticks100ns 2020 3 5 9 7 3 250 = .ok ticks ∧
      GetDate ticks100ns ticks = (2020, 3, 5) ∧
      GetHour ticks100ns ticks = 9 ∧ GetMinute ticks100ns ticks = 7 ∧
      GetSecond ticks100ns ticks = 3 :=
  ⟨by decide, by decide, C1_round_trip ticks100ns (by decide) 2020 3 5 9 7 3 250 (by decide)⟩

/-! ## The naive day count -/

theorem daysInYear_eq (y : Int) :
    DaysInYear y = 365 + (if y % 4 = 0 ∧ (y % 100 ≠ 0 ∨ y % 400 = 0) then 1 else 0) := by
  unfold DaysInYear
  by_cases h : IsLeapYear y = true
  · rw [if_pos h, if_pos ((isLeapYear_iff_emod y).1 h)]; rfl
  · rw [if_neg h, if_neg (fun h2 => h ((isLeapYear_iff_emod y).2 h2))]; rfl

theorem sum_daysInYear (n : Nat) :
    (∑ k ∈ Finset.range n, DaysInYear (k + 1))
      = (n : Int) * 365 + (n : Int) / 4 - (n : Int) / 100 + (n : Int) / 400 := by
  induction n with
  | zero => simp
  | succ n ih =>
    rw [Finset.sum_range_succ, ih, daysInYear_eq]
    push_cast
    split <;> omega

theorem sum_daysInMonth (y m : Int) (hm1 : 1 ≤ m) (hm2 : m ≤ 12) :
    (∑ k ∈ Finset.range (m - 1).toNat, DaysInMonthValue y (k + 1))
      = (if m > 2 ∧ IsLeapYear y = true then 1 else 0) + DaysToMonth.getD (m - 1).toNat 0 := by
  by_cases hleap : IsLeapYear y = true
  · interval_cases m <;>
      simp [Finset.sum_range_succ, DaysInMonthValue, DaysInMonth, tableAt, DaysPerMonth,
        DaysToMonth, hleap]
  · interval_cases m <;>
      simp [Finset.sum_range_succ, DaysInMonthValue, DaysInMonth, tableAt, DaysPerMonth,
        DaysToMonth, hleap]

theorem totalDaysExact_eq_naiveDays (y m d : Int) (hy1 : 1 ≤ y) (hm1 : 1 ≤ m) (hm2 : m ≤ 12) :
    totalDaysExact y m d = naiveDays y m d := by
  unfold totalDaysExact naiveDays
  rw [sum_daysInYear, sum_daysInMonth y m hm1 hm2, Int.toNat_of_nonneg (by omega)]
  omega

/-- C4. For fields accepted by `Validate`, the closed formula of lines 15-20 for
`totalDays` equals the naive count of elapsed days (whole years, whole months,
days), and `Ticks` is `totalDays * TicksPerDay + hour * TicksPerHour +
minute * TicksPerMinute + second * TicksPerSecond +
millisecond * TicksPerMillisecond`; the epoch 0001-01-01 00:00:00.000 has
`Ticks = 0`. -/
theorem C4_total_days_naive (c : Constants) (hc : c.Admissible)
    (year month day hour minute second millisecond : Int)
    (hv : Validate year month day hour minute second millisecond = .ok true) :
    ((if month > 2 ∧ IsLeapYear year = true then 1 else 0)
      + ((year - 1) * 365 + (year - 1) / 4 - (year - 1) / 100 + (year - 1) / 400
        + DaysToMonth.getD (month - 1).toNat 0 + day - 1) = naiveDays year month day) ∧
    DateTime c year month day hour minute second millisecond =
      .ok (naiveDays year month day * c.TicksPerDay + hour * c.TicksPerHour
        + minute * c.TicksPerMinute + second * c.TicksPerSecond
        + millisecond * c.TicksPerMillisecond) ∧
    DateTime c 1 1 1 0 0 0 0 = .ok 0 := by
  have hf := (validate_true_iff _ _ _ _ _ _ _).1 hv
  have hn := totalDaysExact_eq_naiveDays year month day hf.1 hf.2.2.1 hf.2.2.2.1
  refine ⟨hn, ?_, ?_⟩
  · rw [ctor_eq c hc _ _ _ _ _ _ _ hf, ← hn, ticksPerDay_eq, ticksPerHour_eq,
      ticksPerMinute_eq, ticksPerSecond_eq]
    unfold millisExact
    congr 1
    ring
  · rw [ctor_eq c hc 1 1 1 0 0 0 0 (by decide)]
    have : millisExact 1 1 1 0 0 0 0 = 0 := by decide
    rw [this, Int.mul_zero]

/-- Witness for C4 at 0004-03-01 12:30:15.500 with 10000 ticks per millisecond. -/
theorem C4_total_days_naive_witness :
    ticks100ns.Admissible ∧ Validate 4 3 1 12 30 15 500 = .ok true ∧
    DateTime ticks100ns 4 3 1 12 30 15 500 =
      .ok (naiveDays 4 3 1 * ticks100ns.TicksPerDay + 12 * ticks100ns.TicksPerHour
        + 30 * ticks100ns.TicksPerMinute + 15 * ticks100ns.TicksPerSecond
        + 500 * ticks100ns.TicksPerMillisecond) :=
  ⟨by decide, by decide,
    (C4_total_days_naive ticks100ns (by decide) 4 3 1 12 30 15 500 (by decide)).2.1⟩

/-! ## Day of week and day of year -/

theorem ctor_ok_valid (c : Constants) (y m d h mi s ms t : Int)
    (ht : DateTime c y m d h mi s ms = .ok t) : ValidFields y m d h mi s ms := by
  obtain ⟨b, hb⟩ := validate_total y m d h mi s ms
  cases b
  · unfold DateTime at ht
    rw [hb] at ht
    cases ht
  · exact (validate_true_iff _ _ _ _ _ _ _).1 hb

theorem dayOfWeekValue_ctor (c : Constants) (hc : c.Admissible) (y m d h mi s ms : Int)
    (hv : ValidFields y m d h mi s ms) :
    GetDayOfWeekValue c (c.TicksPerMillisecond * millisExact y m d h mi s ms)
      = naiveDays y m d % 7 := by
  obtain ⟨hM1, hM2, hM3⟩ := millisExact_bounds y m d h mi s ms hv
  have hb := totalDaysExact_bounds y m d hv.1 hv.2.1 hv.2.2.1 hv.2.2.2.1 hv.2.2.2.2.1
    hv.2.2.2.2.2.1
  unfold GetDayOfWeekValue
  rw [ticksPerDay_eq, tdiv_scaled _ _ _ hc.1 hM1 (by omega), hM3,
    Int.tmod_eq_emod hb.1 (by omega),
    totalDaysExact_eq_naiveDays y m d hv.1 hv.2.2.1 hv.2.2.2.1]

theorem dayOfWeek_ofValue_isSome (v : Int) (h1 : 0 ≤ v) (h2 : v ≤ 6) :
    ∃ dow, DayOfWeek.ofValue v = some dow := by
  interval_cases v <;> exact ⟨_, rfl⟩

/-- C5. For fields accepted by `Validate`, `GetDayOfWeek` of the constructed
instant is the enumerator with value `N mod 7` (Monday = 0, ..., Sunday = 6),
`N` being the naive count of whole days from 0001-01-01 to the date; the hour,
minute, second and millisecond do not influence it; the epoch is a Monday. -/
theorem C5_day_of_week (c : Constants) (hc : c.Admissible)
    (year month day hour minute second millisecond : Int)
    (hv : Validate year month day hour minute second millisecond = .ok true) :
    ∃ ticks, DateTime c year month day hour minute second millisecond = .ok ticks ∧
      GetDayOfWeekValue c ticks = naiveDays year month day % 7 ∧
      GetDayOfWeek c ticks = DayOfWeek.ofValue (naiveDays year month day % 7) ∧
      (∃ dow, GetDayOfWeek c ticks = some dow) ∧
      (∀ hour2 minute2 second2 millisecond2 ticks2 : Int,
        DateTime c year month day hour2 minute2 second2 millisecond2 = .ok ticks2 →
          GetDayOfWeek c ticks2 = GetDayOfWeek c ticks) ∧
      DateTime c 1 1 1 0 0 0 0 = .ok 0 ∧ GetDayOfWeek c 0 = some .Monday := by
  have hf := (validate_true_iff _ _ _ _ _ _ _).1 hv
  have hval := dayOfWeekValue_ctor c hc _ _ _ _ _ _ _ hf
  have hepoch : DateTime c 1 1 1 0 0 0 0 = .ok 0 := by
    rw [ctor_eq c hc 1 1 1 0 0 0 0 (by decide)]
    have : millisExact 1 1 1 0 0 0 0 = 0 := by decide
    rw [this, Int.mul_zero]
  refine ⟨_, ctor_eq c hc _ _ _ _ _ _ _ hf, hval, ?_, ?_, ?_, hepoch, ?_⟩
  · unfold GetDayOfWeek; rw [hval]
  · unfold GetDayOfWeek; rw [hval]
    exact dayOfWeek_ofValue_isSome _ (by omega) (by omega)
  · intro h2 mi2 s2 ms2 t2 ht2
    have hf2 := ctor_ok_valid c _ _ _ _ _ _ _ _ ht2
    rw [ctor_eq c hc _ _ _ _ _ _ _ hf2] at ht2
    injection ht2 with ht2
    subst ht2
    unfold GetDayOfWeek
    rw [hval, dayOfWeekValue_ctor c hc _ _ _ _ _ _ _ hf2]
  · unfold GetDayOfWeek GetDayOfWeekValue
    simp [DayOfWeek.ofValue]

/-- Witness for C5 at 2024-03-01 08:00:00.000 with 10000 ticks per millisecond. -/
theorem C5_day_of_week_witness :
    ticks100ns.Admissible ∧ Validate 2024 3 1 8 0 0 0 = .ok true ∧
    ∃ ticks, DateTime ticks100ns 2024 3 1 8 0 0 0 = .ok ticks ∧
      GetDayOfWeek ticks100ns ticks = DayOfWeek.ofValue (naiveDays 2024 3 1 % 7) :=
  ⟨by decide, by decide,
    (C5_day_of_week ticks100ns (by decide) 2024 3 1 8 0 0 0 (by decide)).elim
      (fun t ht => ⟨t, ht.1, ht.2.2.1⟩)⟩

theorem dayOfYearLoop_eq (y : Int) (n : Nat) :
    ∀ cur day : Int, 1 ≤ cur → cur + n ≤ 13 → 0 ≤ day → day + 31 * n ≤ 1000000 →
      GetDayOfYearLoop y n cur day
        = .ok (day + ∑ k ∈ Finset.range n, DaysInMonthValue y (cur + k)) := by
  induction n with
  | zero => intro cur day _ _ _ _; simp [GetDayOfYearLoop]
  | succ n ih =>
    intro cur day h1 h2 h3 h4
    push_cast at h2 h4
    have hd := daysInMonth_of_range y cur h1 (by omega)
    have hb := daysInMonth_bounds y cur _ hd
    have hv : DaysInMonthValue y cur = _ := daysInMonthValue_of_range y cur h1 (by omega)
    unfold GetDayOfYearLoop
    rw [hd]
    simp only
    rw [← hv] at hb ⊢
    rw [wrap32_eq (x := cur + 1) (by omega) (by omega),
      wrap32_eq (x := day + DaysInMonthValue y cur) (by omega) (by omega),
      ih (cur + 1) (day + DaysInMonthValue y cur) (by omega) (by omega) (by omega) (by omega),
      Finset.sum_range_succ']
    congr 1
    have e : ∀ k : Nat, cur + 1 + (k : Int) = cur + ((k + 1 : Nat) : Int) := by
      intro k; push_cast; ring
    simp only [e]
    push_cast
    simp only [add_zero]
    ring

/-- C6. For fields accepted by `Validate`, `GetDayOfYear` of the constructed
instant is `day` plus the lengths `DaysInMonth(year, m)` of all months
`1 <= m < month`; for 2024-03-01 it is 61. -/
theorem C6_day_of_year (c : Constants) (hc : c.Admissible)
    (year month day hour minute second millisecond : Int)
    (hv : Validate year month day hour minute second millisecond = .ok true) :
    (∃ ticks, DateTime c year month day hour minute second millisecond = .ok ticks ∧
      GetDayOfYear c ticks
        = .ok (day + ∑ k ∈ Finset.range (month - 1).toNat, DaysInMonthValue year (k + 1))) ∧
    (∃ ticks, DateTime c 2024 3 1 0 0 0 0 = .ok ticks ∧ GetDayOfYear c ticks = .ok 61) := by
  have key : ∀ y m d h mi s ms : Int, ValidFields y m d h mi s ms →
      GetDayOfYear c (c.TicksPerMillisecond * millisExact y m d h mi s ms)
        = .ok (d + ∑ k ∈ Finset.range (m - 1).toNat, DaysInMonthValue y (k + 1)) := by
    intro y m d h mi s ms hf
    obtain ⟨-, -, hm1, hm2, hd1, hd2, -⟩ := id hf
    have hd3 : d ≤ 31 := by
      have := daysInMonth_bounds y m (DaysInMonthValue y m)
        (by unfold DaysInMonthValue; rw [daysInMonth_of_range y m hm1 hm2])
      omega
    unfold GetDayOfYear
    rw [getDate_ctor c hc _ _ _ _ _ _ _ hf]
    simp only
    rw [dayOfYearLoop_eq y (m - 1).toNat 1 d (by omega) (by omega) (by omega) (by omega)]
    congr 2
    apply Finset.sum_congr rfl
    intro k _
    rw [Int.add_comm]
  have hf := (validate_true_iff _ _ _ _ _ _ _).1 hv
  refine ⟨⟨_, ctor_eq c hc _ _ _ _ _ _ _ hf, key _ _ _ _ _ _ _ hf⟩,
    ⟨_, ctor_eq c hc 2024 3 1 0 0 0 0 (by decide), ?_⟩⟩
  rw [key 2024 3 1 0 0 0 0 (by decide)]
  decide

/-- Witness for C6 at 2023-12-31 23:59:59.999 with 10000 ticks per millisecond. -/
theorem C6_day_of_year_witness :
    ticks100ns.Admissible ∧ Validate 2023 12 31 23 59 59 999 = .ok true ∧
    ∃ ticks, DateTime ticks100ns 2023 12 31 23 59 59 999 = .ok ticks ∧
      GetDayOfYear ticks100ns ticks
        = .ok (31 + ∑ k ∈ Finset.range ((12 : Int) - 1).toNat, DaysInMonthValue 2023 (k + 1)) :=
  ⟨by decide, by decide,
    (C6_day_of_year ticks100ns (by decide) 2023 12 31 23 59 59 999 (by decide)).1⟩

/-! ## Validation and contracts -/

/-- C7. For all seven integers (in particular all `int32` values, a month
outside 1..12 included) `Validate` returns a boolean and never stops on the
assertion of `DaysInMonth`; it returns true exactly when 1 <= year <= 9999,
1 <= month <= 12, 1 <= day <= DaysInMonth(year, month), 0 <= hour <= 23,
0 <= minute <= 59, 0 <= second <= 59 and 0 <= millisecond <= 999.  It is false
for February 30 of every year, for month 13 and for hour 24. -/
theorem C7_validate (year month day hour minute second millisecond : Int) :
    (∃ b, Validate year month day hour minute second millisecond = .ok b) ∧
    (Validate year month day hour minute second millisecond = .ok true ↔
      (1 ≤ year ∧ year ≤ 9999 ∧ 1 ≤ month ∧ month ≤ 12 ∧
        (∃ dim, DaysInMonth year month = .ok dim ∧ 1 ≤ day ∧ day ≤ dim) ∧
        0 ≤ hour ∧ hour ≤ 23 ∧ 0 ≤ minute ∧ minute ≤ 59 ∧ 0 ≤ second ∧ second ≤ 59 ∧
        0 ≤ millisecond ∧ millisecond ≤ 999)) ∧
    Validate year 2 30 hour minute second millisecond = .ok false ∧
    Validate year 13 day hour minute second millisecond = .ok false ∧
    Validate year month day 24 minute second millisecond = .ok false := by
  refine ⟨validate_total _ _ _ _ _ _ _, ?_, ?_, ?_, ?_⟩
  · rw [validate_true_iff]
    unfold ValidFields
    constructor
    · rintro ⟨a1, a2, a3, a4, a5, a6, rest⟩
      refine ⟨a1, a2, a3, a4, ⟨DaysInMonthValue year month, ?_, a5, a6⟩, rest⟩
      unfold DaysInMonthValue
      rw [daysInMonth_of_range year month a3 a4]
    · rintro ⟨a1, a2, a3, a4, ⟨dim, hdim, a5, a6⟩, rest⟩
      refine ⟨a1, a2, a3, a4, a5, ?_, rest⟩
      unfold DaysInMonthValue
      rw [hdim]
      exact a6
  · rw [validate_false_iff]
    intro hv
    have h6 := hv.2.2.2.2.2.1
    rw [daysInMonthValue_of_range year 2 (by omega) (by omega)] at h6
    split at h6
    · omega
    · revert h6; decide
  · rw [validate_false_iff]
    intro hv
    have := hv.2.2.2.1
    omega
  · rw [validate_false_iff]
    intro hv
    have := hv.2.2.2.2.2.2.2.1
    omega

/-- C8. With assertions enabled the constructor stops on its assertion exactly
when `Validate` is false; when `Validate` is true it produces a tick count, and
its table lookup `DaysToMonth[month - 1]` is inside the 13-entry table. -/
theorem C8_constructor_contract (c : Constants)
    (year month day hour minute second millisecond : Int) :
    (DateTime c year month day hour minute second millisecond = .error .assertion ↔
      Validate year month day hour minute second millisecond = .ok false) ∧
    (Validate year month day hour minute second millisecond = .ok true →
      (∃ ticks, DateTime c year month day hour minute second millisecond = .ok ticks) ∧
      DaysToMonth.length = 13 ∧ 0 ≤ wrap32 (month - 1) ∧
      wrap32 (month - 1) < DaysToMonth.length ∧
      ∃ v, tableAt DaysToMonth (wrap32 (month - 1)) = .ok v) := by
  have hok : Validate year month day hour minute second millisecond = .ok true →
      (∃ ticks, DateTime c year month day hour minute second millisecond = .ok ticks) ∧
      DaysToMonth.length = 13 ∧ 0 ≤ wrap32 (month - 1) ∧
      wrap32 (month - 1) < DaysToMonth.length ∧
      ∃ v, tableAt DaysToMonth (wrap32 (month - 1)) = .ok v := by
    intro hv
    have hf := (validate_true_iff _ _ _ _ _ _ _).1 hv
    have hm1 := hf.2.2.1
    have hm2 := hf.2.2.2.1
    have hw : wrap32 (month - 1) = month - 1 := wrap32_eq (by omega) (by omega)
    have hlen : DaysToMonth.length = 13 := rfl
    refine ⟨?_, hlen, ?_, ?_, ?_⟩
    · unfold DateTime
      rw [hv]
      simp only
      rw [hw, daysToMonth_getD month hm1 hm2]
      exact ⟨_, rfl⟩
    · rw [hw]; omega
    · rw [hw, hlen]; push_cast; omega
    · rw [hw, daysToMonth_getD month hm1 hm2]
      exact ⟨_, rfl⟩
  refine ⟨?_, hok⟩
  obtain ⟨b, hb⟩ := validate_total year month day hour minute second millisecond
  cases b
  · constructor
    · intro _; exact hb
    · intro _
      unfold DateTime
      rw [hb]
  · obtain ⟨⟨t, ht⟩, -⟩ := hok hb
    rw [ht, hb]
    constructor
    · intro h; cases h
    · intro h; cases h

/-- Witness for C8: 2024-02-29 is constructed, 2023-02-29 stops on the assertion. -/
theorem C8_constructor_contract_witness :
    Validate 2024 2 29 0 0 0 0 = .ok true ∧
    (∃ ticks, DateTime ticks100ns 2024 2 29 0 0 0 0 = .ok ticks) ∧
    Validate 2023 2 29 0 0 0 0 = .ok false ∧
    DateTime ticks100ns 2023 2 29 0 0 0 0 = .error .assertion :=
  ⟨by decide, ((C8_constructor_contract ticks100ns 2024 2 29 0 0 0 0).2 (by decide)).1,
    by decide, (C8_constructor_contract ticks100ns 2023 2 29 0 0 0 0).1.2 (by decide)⟩

/-- C9. For every year and every month in 1..12, `DaysInMonth` returns 29 for
February of a leap year and otherwise the entry of
{31,28,31,30,31,30,31,31,30,31,30,31} for the month, a value between 28 and 31;
for a month outside 1..12 it stops on its assertion.  `DaysInMonth(2024,2) = 29`,
`DaysInMonth(2023,2) = 28`, `DaysInMonth(2024,4) = 30`. -/
theorem C9_days_in_month (year month : Int) :
    (1 ≤ month ∧ month ≤ 12 →
      DaysInMonth year month =
        .ok (if month = 2 ∧ IsLeapYear year = true then 29
          else [31, 28, 31, 30, 31, 30, 31, 31, 30, 31, 30, 31].getD (month - 1).toNat 0) ∧
      ∃ v, DaysInMonth year month = .ok v ∧ 28 ≤ v ∧ v ≤ 31) ∧
    (¬ (1 ≤ month ∧ month ≤ 12) → DaysInMonth year month = .error .assertion) ∧
    DaysInMonth 2024 2 = .ok 29 ∧ DaysInMonth 2023 2 = .ok 28 ∧
    DaysInMonth 2024 4 = .ok 30 := by
  refine ⟨?_, ?_, by decide, by decide, by decide⟩
  · rintro ⟨h1, h2⟩
    have h := daysInMonth_of_range year month h1 h2
    have hb := daysInMonth_bounds year month _ h
    exact ⟨h, _, h, hb.2.2⟩
  · intro h
    unfold DaysInMonth
    rw [if_neg h]

/-- Witness for C9: September has 30 days, month 0 stops on the assertion. -/
theorem C9_days_in_month_witness :
    DaysInMonth 2021 9 = .ok 30 ∧ DaysInMonth 2021 0 = .error .assertion :=
  ⟨((C9_days_in_month 2021 9).1 (by decide)).1, (C9_days_in_month 2021 0).2.1 (by decide)⟩

/-- C10. For every integer year (zero and negative years included, `%` being the
truncating remainder of C++) `IsLeapYear` is true exactly when the year is
divisible by 4 and is not divisible by 100 or is divisible by 400; 2000 and 2024
are leap years, 1900 and 2023 are not. -/
theorem C10_is_leap_year :
    (∀ year : Int, IsLeapYear year = true ↔ (4 ∣ year ∧ (¬ 100 ∣ year ∨ 400 ∣ year))) ∧
    IsLeapYear 2000 = true ∧ IsLeapYear 1900 = false ∧ IsLeapYear 2024 = true ∧
    IsLeapYear 2023 = false := by
  refine ⟨?_, by decide, by decide, by decide, by decide⟩
  intro year
  rw [isLeapYear_iff_emod]
  omega

/-! ## Order and surjectivity -/

theorem leapDay_eq (y : Int) :
    (leapDay y = 1 ∧ y % 4 = 0 ∧ (y % 100 ≠ 0 ∨ y % 400 = 0)) ∨
    (leapDay y = 0 ∧ ¬ (y % 4 = 0 ∧ (y % 100 ≠ 0 ∨ y % 400 = 0))) := by
  unfold leapDay
  by_cases h : IsLeapYear y = true
  · left; rw [if_pos h]; exact ⟨rfl, (isLeapYear_iff_emod y).1 h⟩
  · right; rw [if_neg h]; exact ⟨rfl, fun h2 => h ((isLeapYear_iff_emod y).2 h2)⟩

theorem yearStart_succ (y : Int) : yearStart (y + 1) = yearStart y + 365 + leapDay y := by
  unfold yearStart
  rcases leapDay_eq y with ⟨h1, h2⟩ | ⟨h1, h2⟩ <;> rw [h1] <;> omega

theorem yearStart_mono (a b : Int) (h : a ≤ b) : yearStart a ≤ yearStart b := by
  unfold yearStart; omega

theorem totalDaysExact_eq_start (y m d : Int) (hm1 : 1 ≤ m) (hm2 : m ≤ 12) :
    totalDaysExact y m d = yearStart y + monthStart (leapDay y) m + d - 1 := by
  unfold totalDaysExact yearStart monthStart leapDay
  by_cases hleap : IsLeapYear y = true
  · interval_cases m <;> simp [DaysToMonth, hleap] <;> omega
  · interval_cases m <;> simp [DaysToMonth, hleap]

theorem daysInMonthValue_eq_start (y m : Int) (hm1 : 1 ≤ m) (hm2 : m ≤ 12) :
    DaysInMonthValue y m = monthStart (leapDay y) (m + 1) - monthStart (leapDay y) m := by
  rw [daysInMonthValue_of_range y m hm1 hm2]
  unfold monthStart leapDay
  by_cases hleap : IsLeapYear y = true
  · interval_cases m <;> simp [hleap]
  · interval_cases m <;> simp [hleap]

theorem monthStart_mono (L a b : Int) (hL1 : 0 ≤ L) (ha : 1 ≤ a) (h : a ≤ b) :
    monthStart L a ≤ monthStart L b := by
  unfold monthStart
  split <;> split <;> omega

theorem monthStart_bounds (L m : Int) (hL1 : 0 ≤ L) (hL2 : L ≤ 1) (hm1 : 1 ≤ m) (hm2 : m ≤ 13) :
    0 ≤ monthStart L m ∧ monthStart L m ≤ 365 + L ∧ monthStart L 1 = 0 ∧
      monthStart L 13 = 365 + L := by
  unfold monthStart
  refine ⟨?_, ?_, ?_, ?_⟩
  · split <;> omega
  · split <;> omega
  · simp
  · simp

theorem totalDaysExact_lt (y m d y2 m2 d2 : Int)
    (hm1 : 1 ≤ m) (hm2 : m ≤ 12) (hd2 : d ≤ DaysInMonthValue y m)
    (hn1 : 1 ≤ m2) (hn2 : m2 ≤ 12) (he1 : 1 ≤ d2)
    (hlt : y < y2 ∨ (y = y2 ∧ (m < m2 ∨ (m = m2 ∧ d < d2)))) :
    totalDaysExact y m d < totalDaysExact y2 m2 d2 := by
  rw [totalDaysExact_eq_start y m d hm1 hm2, totalDaysExact_eq_start y2 m2 d2 hn1 hn2]
  rw [daysInMonthValue_eq_start y m hm1 hm2] at hd2
  have hL : 0 ≤ leapDay y ∧ leapDay y ≤ 1 := by
    rcases leapDay_eq y with ⟨h, -⟩ | ⟨h, -⟩ <;> omega
  have hL2 : 0 ≤ leapDay y2 ∧ leapDay y2 ≤ 1 := by
    rcases leapDay_eq y2 with ⟨h, -⟩ | ⟨h, -⟩ <;> omega
  have b1 := monthStart_bounds (leapDay y) (m + 1) hL.1 hL.2 (by omega) (by omega)
  have b2 := monthStart_bounds (leapDay y2) m2 hL2.1 hL2.2 hn1 (by omega)
  rcases hlt with h | ⟨h, h2 | ⟨h2, h3⟩⟩
  · have s1 := yearStart_succ y
    have s2 := yearStart_mono (y + 1) y2 (by omega)
    omega
  · subst h
    have := monthStart_mono (leapDay y) (m + 1) m2 hL.1 (by omega) (by omega)
    omega
  · subst h; subst h2; omega

/-- Every day count of the years 1..9999 is the day count of a valid date. -/
theorem exists_date_of_days (n : Nat) (hn : (n : Int) ≤ 3652058) :
    ∃ y m d : Int, 1 ≤ y ∧ y ≤ 9999 ∧ 1 ≤ m ∧ m ≤ 12 ∧ 1 ≤ d ∧ d ≤ DaysInMonthValue y m ∧
      totalDaysExact y m d = n := by
  induction n with
  | zero => exact ⟨1, 1, 1, by decide, by decide, by decide, by decide, by decide, by decide,
      by decide⟩
  | succ n ih =>
    push_cast at hn
    obtain ⟨y, m, d, hy1, hy2, hm1, hm2, hd1, hd2, hD⟩ := ih (by omega)
    have hL : 0 ≤ leapDay y ∧ leapDay y ≤ 1 := by
      rcases leapDay_eq y with ⟨h, -⟩ | ⟨h, -⟩ <;> omega
    have hs := totalDaysExact_eq_start y m d hm1 hm2
    have hdim := daysInMonthValue_eq_start y m hm1 hm2
    by_cases hlast : d < DaysInMonthValue y m
    · refine ⟨y, m, d + 1, hy1, hy2, hm1, hm2, by omega, by omega, ?_⟩
      rw [totalDaysExact_eq_start y m (d + 1) hm1 hm2]
      push_cast
      omega
    · by_cases hdec : m < 12
      · have hdim2 := daysInMonthValue_eq_start y (m + 1) (by omega) (by omega)
        have hmono := monthStart_mono (leapDay y) (m + 1) (m + 1 + 1) hL.1 (by omega) (by omega)
        have hpos : 1 ≤ DaysInMonthValue y (m + 1) := by
          have := daysInMonth_bounds y (m + 1) (DaysInMonthValue y (m + 1))
            (by unfold DaysInMonthValue
                rw [daysInMonth_of_range y (m + 1) (by omega) (by omega)])
          omega
        refine ⟨y, m + 1, 1, hy1, hy2, by omega, by omega, by omega, hpos, ?_⟩
        rw [totalDaysExact_eq_start y (m + 1) 1 (by omega) (by omega)]
        push_cast
        omega
      · have hm : m = 12 := by omega
        subst hm
        have b := monthStart_bounds (leapDay y) 13 hL.1 hL.2 (by omega) (by omega)
        have hys := yearStart_succ y
        have hnew : totalDaysExact (y + 1) 1 1 = ((n + 1 : Nat) : Int) := by
          rw [totalDaysExact_eq_start (y + 1) 1 1 (by omega) (by omega)]
          have b1 := monthStart_bounds (leapDay (y + 1)) 1 (by
            rcases leapDay_eq (y + 1) with ⟨h, -⟩ | ⟨h, -⟩ <;> omega) (by
            rcases leapDay_eq (y + 1) with ⟨h, -⟩ | ⟨h, -⟩ <;> omega) (by omega) (by omega)
          push_cast
          have e : (12 : Int) + 1 = 13 := by norm_num
          rw [e] at hdim
          omega
        have hy3 : y + 1 ≤ 9999 := by
          by_contra hcon
          have hy : y = 9999 := by omega
          subst hy
          have h9 : totalDaysExact 9999 12 d = yearStart 9999 + monthStart (leapDay 9999) 12
              + d - 1 := hs
          have hl9 : leapDay 9999 = 0 := by decide
          have hy9 : yearStart 9999 = 3651694 := by decide
          rw [hl9] at h9 hdim b
          rw [hy9] at h9
          have e : (12 : Int) + 1 = 13 := by norm_num
          rw [e] at hdim
          omega
        exact ⟨y + 1, 1, 1, by omega, hy3, by omega, by omega, by omega, by
          rw [daysInMonthValue_of_range (y + 1) 1 (by omega) (by omega)]; simp, hnew⟩

theorem millisExact_lt (y m d h mi s ms y2 m2 d2 h2 mi2 s2 ms2 : Int)
    (hA : ValidFields y m d h mi s ms) (hB : ValidFields y2 m2 d2 h2 mi2 s2 ms2)
    (hlt : FieldsBefore y m d h mi s ms y2 m2 d2 h2 mi2 s2 ms2) :
    millisExact y m d h mi s ms < millisExact y2 m2 d2 h2 mi2 s2 ms2 := by
  obtain ⟨-, -, hm1, hm2, -, hd2, hh1, hh2, hmi1, hmi2, hs1, hs2, hms1, hms2⟩ := hA
  obtain ⟨-, -, hn1, hn2, he1, -, gh1, gh2, gmi1, gmi2, gs1, gs2, gms1, gms2⟩ := hB
  unfold FieldsBefore at hlt
  unfold millisExact
  by_cases hdate : y < y2 ∨ (y = y2 ∧ (m < m2 ∨ (m = m2 ∧ d < d2)))
  · have := totalDaysExact_lt y m d y2 m2 d2 hm1 hm2 hd2 hn1 hn2 he1 hdate
    omega
  · have hy : y = y2 := by omega
    have hm : m = m2 := by omega
    have hd : d = d2 := by omega
    subst hy; subst hm; subst hd
    generalize totalDaysExact y m d = D
    omega

/-- C3. Monotonicity: of two field tuples accepted by `Validate`, the one that is
strictly before the other in lexicographic order on (year, month, day, hour,
minute, second, millisecond) is constructed with strictly fewer ticks. -/
theorem C3_monotone (c : Constants) (hc : c.Admissible)
    (y m d h mi s ms y2 m2 d2 h2 mi2 s2 ms2 : Int)
    (hA : Validate y m d h mi s ms = .ok true)
    (hB : Validate y2 m2 d2 h2 mi2 s2 ms2 = .ok true)
    (hlt : FieldsBefore y m d h mi s ms y2 m2 d2 h2 mi2 s2 ms2) :
    ∃ ticksA ticksB, DateTime c y m d h mi s ms = .ok ticksA ∧
      DateTime c y2 m2 d2 h2 mi2 s2 ms2 = .ok ticksB ∧ ticksA < ticksB := by
  have fA := (validate_true_iff _ _ _ _ _ _ _).1 hA
  have fB := (validate_true_iff _ _ _ _ _ _ _).1 hB
  exact ⟨_, _, ctor_eq c hc _ _ _ _ _ _ _ fA, ctor_eq c hc _ _ _ _ _ _ _ fB,
    Int.mul_lt_mul_of_pos_left (millisExact_lt _ _ _ _ _ _ _ _ _ _ _ _ _ _ fA fB hlt) hc.1⟩

/-- Witness for C3: 2023-12-31 23:59:59.999 is before 2024-01-01 00:00:00.000. -/
theorem C3_monotone_witness :
    ticks100ns.Admissible ∧ Validate 2023 12 31 23 59 59 999 = .ok true ∧
    Validate 2024 1 1 0 0 0 0 = .ok true ∧
    FieldsBefore 2023 12 31 23 59 59 999 2024 1 1 0 0 0 0 ∧
    ∃ ticksA ticksB, DateTime ticks100ns 2023 12 31 23 59 59 999 = .ok ticksA ∧
      DateTime ticks100ns 2024 1 1 0 0 0 0 = .ok ticksB ∧ ticksA < ticksB :=
  ⟨by decide, by decide, by decide, by decide,
    C3_monotone ticks100ns (by decide) 2023 12 31 23 59 59 999 2024 1 1 0 0 0 0
      (by decide) (by decide) (by decide)⟩

/-! ## The image of the constructor -/

theorem millisExact_inj (y m d h mi s ms y2 m2 d2 h2 mi2 s2 ms2 : Int)
    (hA : ValidFields y m d h mi s ms) (hB : ValidFields y2 m2 d2 h2 mi2 s2 ms2)
    (he : millisExact y m d h mi s ms = millisExact y2 m2 d2 h2 mi2 s2 ms2) :
    y = y2 ∧ m = m2 ∧ d = d2 ∧ h = h2 ∧ mi = mi2 ∧ s = s2 ∧ ms = ms2 := by
  obtain ⟨-, -, a3⟩ := millisExact_bounds _ _ _ _ _ _ _ hA
  obtain ⟨-, -, b3⟩ := millisExact_bounds _ _ _ _ _ _ _ hB
  have hD : totalDaysExact y m d = totalDaysExact y2 m2 d2 := by rw [← a3, ← b3, he]
  have r1 := dateOfDays_totalDaysExact y m d hA.2.2.1 hA.2.2.2.1 hA.2.2.2.2.1 hA.2.2.2.2.2.1
  have r2 := dateOfDays_totalDaysExact y2 m2 d2 hB.2.2.1 hB.2.2.2.1 hB.2.2.2.2.1
    hB.2.2.2.2.2.1
  rw [hD, r2] at r1
  injection r1 with e1 r1
  injection r1 with e2 e3
  obtain ⟨-, -, -, -, -, -, hh1, hh2, hmi1, hmi2, hs1, hs2, hms1, hms2⟩ := hA
  obtain ⟨-, -, -, -, -, -, gh1, gh2, gmi1, gmi2, gs1, gs2, gms1, gms2⟩ := hB
  unfold millisExact at he
  rw [hD] at he
  refine ⟨e1.symm, e2.symm, e3.symm, ?_⟩
  generalize totalDaysExact y2 m2 d2 = D at he
  omega

theorem exists_fields_of_millis (M : Int) (h1 : 0 ≤ M) (h2 : M < 315537897600000) :
    ∃ y m d h mi s ms : Int, ValidFields y m d h mi s ms ∧
      millisExact y m d h mi s ms = M := by
  obtain ⟨y, m, d, hy1, hy2, hm1, hm2, hd1, hd2, hD⟩ :=
    exists_date_of_days (M / 86400000).toNat (by omega)
  rw [Int.toNat_of_nonneg (by omega)] at hD
  refine ⟨y, m, d, M / 3600000 % 24, M / 60000 % 60, M / 1000 % 60, M % 1000,
    ⟨hy1, hy2, hm1, hm2, hd1, hd2, by omega, by omega, by omega, by omega, by omega,
      by omega, by omega, by omega⟩, ?_⟩
  unfold millisExact
  rw [hD]
  omega

/-- C2, amended. The constructor, as a map from the field tuples accepted by
`Validate` to tick counts, is injective; each of its values lies between 0 and
the ticks of 9999-12-31 23:59:59.999 and is a multiple of `TicksPerMillisecond`;
and every multiple of `TicksPerMillisecond` in that interval is the tick count
of some accepted field tuple. -/
theorem C2_bijection_onto_whole_milliseconds (c : Constants) (hc : c.Admissible) :
    (∀ y m d h mi s ms y2 m2 d2 h2 mi2 s2 ms2 : Int,
      Validate y m d h mi s ms = .ok true → Validate y2 m2 d2 h2 mi2 s2 ms2 = .ok true →
      DateTime c y m d h mi s ms = DateTime c y2 m2 d2 h2 mi2 s2 ms2 →
        y = y2 ∧ m = m2 ∧ d = d2 ∧ h = h2 ∧ mi = mi2 ∧ s = s2 ∧ ms = ms2) ∧
    ∃ last, DateTime c 9999 12 31 23 59 59 999 = .ok last ∧
      (∀ y m d h mi s ms : Int, Validate y m d h mi s ms = .ok true →
        ∃ ticks, DateTime c y m d h mi s ms = .ok ticks ∧ 0 ≤ ticks ∧ ticks ≤ last ∧
          c.TicksPerMillisecond ∣ ticks) ∧
      (∀ ticks : Int, 0 ≤ ticks → ticks ≤ last → c.TicksPerMillisecond ∣ ticks →
        ∃ y m d h mi s ms : Int, Validate y m d h mi s ms = .ok true ∧
          DateTime c y m d h mi s ms = .ok ticks) := by
  have hT := hc.1
  have hlast : millisExact 9999 12 31 23 59 59 999 = 315537897599999 := by decide
  refine ⟨?_, c.TicksPerMillisecond * 315537897599999, ?_, ?_, ?_⟩
  · intro y m d h mi s ms y2 m2 d2 h2 mi2 s2 ms2 hA hB he
    have fA := (validate_true_iff _ _ _ _ _ _ _).1 hA
    have fB := (validate_true_iff _ _ _ _ _ _ _).1 hB
    rw [ctor_eq c hc _ _ _ _ _ _ _ fA, ctor_eq c hc _ _ _ _ _ _ _ fB] at he
    injection he with he
    exact millisExact_inj _ _ _ _ _ _ _ _ _ _ _ _ _ _ fA fB
      (Int.eq_of_mul_eq_mul_left (ne_of_gt hT) he)
  · rw [ctor_eq c hc 9999 12 31 23 59 59 999 (by decide), hlast]
  · intro y m d h mi s ms hA
    have fA := (validate_true_iff _ _ _ _ _ _ _).1 hA
    obtain ⟨b1, b2, -⟩ := millisExact_bounds _ _ _ _ _ _ _ fA
    exact ⟨_, ctor_eq c hc _ _ _ _ _ _ _ fA, Int.mul_nonneg (le_of_lt hT) b1,
      Int.mul_le_mul_of_nonneg_left (by omega) (le_of_lt hT), Dvd.intro _ rfl⟩
  · rintro ticks h0 h1 ⟨M, rfl⟩
    have hM0 : 0 ≤ M := by
      by_contra hneg
      have : c.TicksPerMillisecond * M < c.TicksPerMillisecond * 0 :=
        Int.mul_lt_mul_of_pos_left (by omega) hT
      omega
    have hM1 : M ≤ 315537897599999 := le_of_mul_le_mul_left h1 hT
    obtain ⟨y, m, d, h, mi, s, ms, hf, hM⟩ := exists_fields_of_millis M hM0 (by omega)
    exact ⟨y, m, d, h, mi, s, ms, (validate_true_iff _ _ _ _ _ _ _).2 hf, by
      rw [ctor_eq c hc _ _ _ _ _ _ _ hf, hM]⟩

/-- Witness for C2 with 10000 ticks per millisecond. -/
theorem C2_bijection_onto_whole_milliseconds_witness :
    ticks100ns.Admissible ∧
    ∃ last, DateTime ticks100ns 9999 12 31 23 59 59 999 = .ok last ∧
      (∀ y m d h mi s ms : Int, Validate y m d h mi s ms = .ok true →
        ∃ ticks, DateTime ticks100ns y m d h mi s ms = .ok ticks ∧ 0 ≤ ticks ∧ ticks ≤ last ∧
          ticks100ns.TicksPerMillisecond ∣ ticks) ∧
      (∀ ticks : Int, 0 ≤ ticks → ticks ≤ last → ticks100ns.TicksPerMillisecond ∣ ticks →
        ∃ y m d h mi s ms : Int, Validate y m d h mi s ms = .ok true ∧
          DateTime ticks100ns y m d h mi s ms = .ok ticks) :=
  ⟨by decide, (C2_bijection_onto_whole_milliseconds ticks100ns (by decide)).2⟩

/-- C2 as stated fails: with 10000 ticks per millisecond the tick count 1 lies in
the interval from 0 to the ticks of 9999-12-31 23:59:59.999, yet no field tuple
accepted by `Validate` is constructed with 1 tick. -/
theorem C2_not_onto_interval :
    DateTime ticks100ns 9999 12 31 23 59 59 999 = .ok 3155378975999990000 ∧
    (0 : Int) ≤ 1 ∧ (1 : Int) ≤ 3155378975999990000 ∧
    ¬ ∃ y m d h mi s ms : Int, Validate y m d h mi s ms = .ok true ∧
      DateTime ticks100ns y m d h mi s ms = .ok 1 := by
  refine ⟨by decide, by decide, by decide, ?_⟩
  rintro ⟨y, m, d, h, mi, s, ms, hv, ht⟩
  have hf := (validate_true_iff _ _ _ _ _ _ _).1 hv
  rw [ctor_eq ticks100ns (by decide) _ _ _ _ _ _ _ hf] at ht
  injection ht with ht
  have e : ticks100ns.TicksPerMillisecond = 10000 := rfl
  rw [e] at ht
  omega

/-! ## Days in a year and the 12-hour clock -/

/-- C11. For every year, `DaysInYear` is 366 in a leap year and 365 otherwise,
and it is the sum of `DaysInMonth(year, m)` over the months m = 1..12, each of
which returns a value; `DaysInYear(2024) = 366` and `DaysInYear(2023) = 365`. -/
theorem C11_days_in_year :
    (∀ year : Int, DaysInYear year = (if IsLeapYear year = true then 366 else 365) ∧
      (∀ k ∈ Finset.range 12,
        DaysInMonth year (k + 1) = .ok (DaysInMonthValue year (k + 1))) ∧
      DaysInYear year = ∑ k ∈ Finset.range 12, DaysInMonthValue year (k + 1)) ∧
    DaysInYear 2024 = 366 ∧ DaysInYear 2023 = 365 := by
  refine ⟨?_, by decide, by decide⟩
  intro year
  refine ⟨rfl, ?_, ?_⟩
  · intro k hk
    have hk2 := Finset.mem_range.1 hk
    unfold DaysInMonthValue
    rw [daysInMonth_of_range year (k + 1) (by omega) (by omega)]
  · have h := sum_daysInMonth year 12 (by omega) (by omega)
    have e : ((12 : Int) - 1).toNat = 11 := by decide
    rw [e] at h
    have e2 : ((11 : Nat) : Int) + 1 = 12 := by norm_num
    rw [Finset.sum_range_succ, h, e2, daysInMonthValue_of_range year 12 (by decide) (by decide)]
    unfold DaysInYear
    by_cases hl : IsLeapYear year = true
    · simp [hl, DaysToMonth]
    · simp [hl, DaysToMonth]

/-- Witness for C11: February 2024 returns its value, which enters the sum. -/
theorem C11_days_in_year_witness :
    DaysInMonth 2024 ((1 : Nat) + 1) = .ok (DaysInMonthValue 2024 ((1 : Nat) + 1)) ∧
    DaysInYear 2024 = ∑ k ∈ Finset.range 12, DaysInMonthValue 2024 (k + 1) :=
  ⟨(C11_days_in_year.1 2024).2.1 1 (by decide), (C11_days_in_year.1 2024).2.2⟩

theorem getHour12_of_hour (c : Constants) (Ticks : Int) (h1 : 0 ≤ GetHour c Ticks)
    (h2 : GetHour c Ticks ≤ 23) :
    GetHour12 c Ticks =
      (if GetHour c Ticks = 0 then 12
        else if GetHour c Ticks > 12 then GetHour c Ticks - 12 else GetHour c Ticks) := by
  unfold GetHour12
  simp only
  generalize GetHour c Ticks = h at h1 h2 ⊢
  have hw : wrap32 (h - 12) = h - 12 := wrap32_eq (by omega) (by omega)
  rw [hw]
  split_ifs <;> omega

theorem getHour_of_hours (c : Constants) (hc : c.Admissible) (h : Int) (h1 : 0 ≤ h)
    (h2 : h ≤ 23) : GetHour c (h * c.TicksPerHour) = h := by
  unfold GetHour
  have e : h * c.TicksPerHour = c.TicksPerMillisecond * (h * 3600000) := by
    rw [ticksPerHour_eq]; ring
  rw [e, ticksPerHour_eq, tdiv_scaled _ _ _ hc.1 (by omega) (by omega),
    Int.tmod_eq_emod (by omega) (by omega), wrap32_eq (by omega) (by omega)]
  omega

/-- C12. Whenever `GetHour` returns a 24-hour value `h` in 0..23, `GetHour12`
returns 12 for `h = 0`, `h - 12` for `h > 12` and `h` otherwise; the result lies
in 1..12 and is congruent to `h` modulo 12.  At the full hours 0, 12, 13, 23 and
1 of the epoch day it returns 12, 12, 1, 11 and 1. -/
theorem C12_hour12 (c : Constants) (hc : c.Admissible) (Ticks : Int)
    (h1 : 0 ≤ GetHour c Ticks) (h2 : GetHour c Ticks ≤ 23) :
    GetHour12 c Ticks =
      (if GetHour c Ticks = 0 then 12
        else if GetHour c Ticks > 12 then GetHour c Ticks - 12 else GetHour c Ticks) ∧
    1 ≤ GetHour12 c Ticks ∧ GetHour12 c Ticks ≤ 12 ∧
    GetHour12 c Ticks % 12 = GetHour c Ticks % 12 ∧
    GetHour12 c (0 * c.TicksPerHour) = 12 ∧ GetHour12 c (12 * c.TicksPerHour) = 12 ∧
    GetHour12 c (13 * c.TicksPerHour) = 1 ∧ GetHour12 c (23 * c.TicksPerHour) = 11 ∧
    GetHour12 c (1 * c.TicksPerHour) = 1 := by
  have key := getHour12_of_hour c Ticks h1 h2
  have ex : ∀ h : Int, 0 ≤ h → h ≤ 23 →
      GetHour12 c (h * c.TicksPerHour) = (if h = 0 then 12 else if h > 12 then h - 12 else h) := by
    intro h a b
    have g := getHour_of_hours c hc h a b
    have := getHour12_of_hour c (h * c.TicksPerHour) (by omega) (by omega)
    rw [g] at this
    exact this
  refine ⟨key, ?_, ?_, ?_, ?_, ?_, ?_, ?_, ?_⟩
  · rw [key]; split <;> [omega; (split <;> omega)]
  · rw [key]; split <;> [omega; (split <;> omega)]
  · rw [key]; split <;> [omega; (split <;> omega)]
  · rw [ex 0 (by omega) (by omega)]; rfl
  · rw [ex 12 (by omega) (by omega)]; rfl
  · rw [ex 13 (by omega) (by omega)]; rfl
  · rw [ex 23 (by omega) (by omega)]; rfl
  · rw [ex 1 (by omega) (by omega)]; rfl

/-- Witness for C12 at 17:45 of the epoch day with 10000 ticks per millisecond. -/
theorem C12_hour12_witness :
    ticks100ns.Admissible ∧ GetHour ticks100ns 639000000000 = 17 ∧
    GetHour12 ticks100ns 639000000000 = 5 :=
  ⟨by decide, by decide, (C12_hour12 ticks100ns (by decide) 639000000000 (by decide)
    (by decide)).1⟩

/-! ## The file name text -/

theorem toDigits_one (n : Nat) (h : n < 10) : Nat.toDigits 10 n = [Nat.digitChar n] := by
  unfold Nat.toDigits
  rw [Nat.toDigitsCore]
  have h1 : n / 10 = 0 := by omega
  have h2 : n % 10 = n := by omega
  simp [h1, h2]

theorem toDigits_two (n : Nat) (h1 : 10 ≤ n) (h2 : n < 100) :
    Nat.toDigits 10 n = [Nat.digitChar (n / 10), Nat.digitChar (n % 10)] := by
  unfold Nat.toDigits
  obtain ⟨k, rfl⟩ : ∃ k, n = k + 1 := ⟨n - 1, by omega⟩
  rw [Nat.toDigitsCore, Nat.toDigitsCore]
  have e1 : (k + 1) / 10 ≠ 0 := by omega
  have e2 : (k + 1) / 10 / 10 = 0 := by omega
  have e3 : (k + 1) / 10 % 10 = (k + 1) / 10 := by omega
  simp [e1, e2, e3]

theorem toDigits_three (n : Nat) (h1 : 100 ≤ n) (h2 : n < 1000) :
    Nat.toDigits 10 n = [Nat.digitChar (n / 100), Nat.digitChar (n / 10 % 10),
      Nat.digitChar (n % 10)] := by
  unfold Nat.toDigits
  obtain ⟨k, rfl⟩ : ∃ k, n = k + 2 := ⟨n - 2, by omega⟩
  rw [Nat.toDigitsCore, Nat.toDigitsCore, Nat.toDigitsCore]
  have e1 : (k + 2) / 10 ≠ 0 := by omega
  have e2 : (k + 2) / 10 / 10 ≠ 0 := by omega
  have e3 : (k + 2) / 10 / 10 / 10 = 0 := by omega
  have e4 : (k + 2) / 10 / 10 % 10 = (k + 2) / 100 := by omega
  simp [e1, e2, e3, e4]

theorem toDigits_four (n : Nat) (h1 : 1000 ≤ n) (h2 : n < 10000) :
    Nat.toDigits 10 n = [Nat.digitChar (n / 1000), Nat.digitChar (n / 100 % 10),
      Nat.digitChar (n / 10 % 10), Nat.digitChar (n % 10)] := by
  unfold Nat.toDigits
  obtain ⟨k, rfl⟩ : ∃ k, n = k + 3 := ⟨n - 3, by omega⟩
  rw [Nat.toDigitsCore, Nat.toDigitsCore, Nat.toDigitsCore, Nat.toDigitsCore]
  have e1 : (k + 3) / 10 ≠ 0 := by omega
  have e2 : (k + 3) / 10 / 10 ≠ 0 := by omega
  have e3 : (k + 3) / 10 / 10 / 10 ≠ 0 := by omega
  have e4 : (k + 3) / 10 / 10 / 10 / 10 = 0 := by omega
  have e5 : (k + 3) / 10 / 10 / 10 % 10 = (k + 3) / 1000 := by omega
  have e6 : (k + 3) / 10 / 10 % 10 = (k + 3) / 100 % 10 := by omega
  simp [e1, e2, e3, e4, e5, e6]

theorem formatDecimal_nonneg (x : Int) (h : 0 ≤ x) :
    formatDecimal x = Nat.toDigits 10 x.toNat := by
  obtain ⟨n, rfl⟩ := Int.eq_ofNat_of_zero_le h
  rfl

theorem formatPadded2_eq (x : Int) (h1 : 0 ≤ x) (h2 : x ≤ 99) :
    formatPadded2 x = [Nat.digitChar (x / 10).toNat, Nat.digitChar (x % 10).toNat] := by
  unfold formatPadded2
  rw [formatDecimal_nonneg x h1]
  obtain ⟨n, rfl⟩ := Int.eq_ofNat_of_zero_le h1
  have hn : n ≤ 99 := by omega
  have ea : ((n : Int) / 10).toNat = n / 10 := by omega
  have eb : ((n : Int) % 10).toNat = n % 10 := by omega
  rw [ea, eb, Int.toNat_ofNat]
  by_cases hs : n < 10
  · rw [toDigits_one n hs]
    have e1 : n / 10 = 0 := by omega
    have e2 : n % 10 = n := by omega
    rw [e1, e2]
    rfl
  · rw [toDigits_two n (by omega) (by omega)]
    rfl

theorem toFileNameString_ctor (c : Constants) (hc : c.Admissible) (y m d h mi s ms : Int)
    (hv : ValidFields y m d h mi s ms) :
    ToFileNameString c (c.TicksPerMillisecond * millisExact y m d h mi s ms) =
      String.mk (formatDecimal y ++ '_' :: formatPadded2 m ++ '_' :: formatPadded2 d
        ++ '_' :: formatPadded2 h ++ '_' :: formatPadded2 mi ++ '_' :: formatPadded2 s) := by
  obtain ⟨e1, e2, e3⟩ := timeOfDay_ctor c hc y m d h mi s ms hv
  unfold ToFileNameString
  rw [getDate_ctor c hc y m d h mi s ms hv, e1, e2, e3]

/-- C13, amended. For fields accepted by `Validate`, `ToFileNameString` of the
constructed instant is the year in decimal without padding, then month, day,
hour, minute and second each as 2 decimal digits (zero-padded), joined by
underscores.  For years 1000..9999 the year has 4 digits and the text has 19
characters; for years 1..999 the year has 1 to 3 digits and the text is
shorter.  `DateTime(2020,3,5,9,7,3,0)` gives "2020_03_05_09_07_03". -/
theorem C13_file_name_text (c : Constants) (hc : c.Admissible)
    (year month day hour minute second millisecond : Int)
    (hv : Validate year month day hour minute second millisecond = .ok true) :
    (∃ ticks, DateTime c year month day hour minute second millisecond = .ok ticks ∧
      ToFileNameString c ticks = String.mk (formatDecimal year
        ++ '_' :: [Nat.digitChar (month / 10).toNat, Nat.digitChar (month % 10).toNat]
        ++ '_' :: [Nat.digitChar (day / 10).toNat, Nat.digitChar (day % 10).toNat]
        ++ '_' :: [Nat.digitChar (hour / 10).toNat, Nat.digitChar (hour % 10).toNat]
        ++ '_' :: [Nat.digitChar (minute / 10).toNat, Nat.digitChar (minute % 10).toNat]
        ++ '_' :: [Nat.digitChar (second / 10).toNat, Nat.digitChar (second % 10).toNat]) ∧
      (ToFileNameString c ticks).length = (formatDecimal year).length + 15 ∧
      (1000 ≤ year →
        formatDecimal year = [Nat.digitChar (year / 1000).toNat,
          Nat.digitChar (year / 100 % 10).toNat, Nat.digitChar (year / 10 % 10).toNat,
          Nat.digitChar (year % 10).toNat] ∧
        (ToFileNameString c ticks).length = 19) ∧
      (year < 1000 → 1 ≤ (formatDecimal year).length ∧ (formatDecimal year).length ≤ 3 ∧
        (ToFileNameString c ticks).length < 19)) ∧
    (∃ ticks, DateTime c 2020 3 5 9 7 3 0 = .ok ticks ∧
      ToFileNameString c ticks = "2020_03_05_09_07_03") := by
  have hf := (validate_true_iff _ _ _ _ _ _ _).1 hv
  have hd3 : day ≤ 31 := by
    have := daysInMonth_bounds year month (DaysInMonthValue year month)
      (by unfold DaysInMonthValue; rw [daysInMonth_of_range year month hf.2.2.1 hf.2.2.2.1])
    have := hf.2.2.2.2.2.1
    omega
  obtain ⟨hy1, hy2, hm1, hm2, hd1, -, hh1, hh2, hmi1, hmi2, hs1, hs2, -, -⟩ := id hf
  have htext := toFileNameString_ctor c hc _ _ _ _ _ _ _ hf
  rw [formatPadded2_eq month (by omega) (by omega), formatPadded2_eq day (by omega) (by omega),
    formatPadded2_eq hour hh1 (by omega), formatPadded2_eq minute hmi1 (by omega),
    formatPadded2_eq second hs1 (by omega)] at htext
  have hlen : (ToFileNameString c (c.TicksPerMillisecond *
      millisExact year month day hour minute second millisecond)).length
        = (formatDecimal year).length + 15 := by
    rw [htext]
    simp [String.length]
  have hyear := formatDecimal_nonneg year (by omega)
  refine ⟨⟨_, ctor_eq c hc _ _ _ _ _ _ _ hf, htext, hlen, ?_, ?_⟩,
    ⟨_, ctor_eq c hc 2020 3 5 9 7 3 0 (by decide), ?_⟩⟩
  · intro h1000
    have h4 := toDigits_four year.toNat (by omega) (by omega)
    have e1 : year.toNat / 1000 = (year / 1000).toNat := by omega
    have e2 : year.toNat / 100 % 10 = (year / 100 % 10).toNat := by omega
    have e3 : year.toNat / 10 % 10 = (year / 10 % 10).toNat := by omega
    have e4 : year.toNat % 10 = (year % 10).toNat := by omega
    rw [e1, e2, e3, e4] at h4
    rw [hlen, hyear, h4]
    exact ⟨rfl, rfl⟩
  · intro hsmall
    rw [hlen, hyear]
    by_cases a : year.toNat < 10
    · rw [toDigits_one _ a]; simp
    · by_cases b : year.toNat < 100
      · rw [toDigits_two _ (by omega) b]; simp
      · rw [toDigits_three _ (by omega) (by omega)]; simp
  · rw [toFileNameString_ctor c hc 2020 3 5 9 7 3 0 (by decide)]
    decide

/-- Witness for C13 at 1999-12-31 23:59:58.000 with 10000 ticks per millisecond. -/
theorem C13_file_name_text_witness :
    ticks100ns.Admissible ∧ Validate 1999 12 31 23 59 58 0 = .ok true ∧
    ∃ ticks, DateTime ticks100ns 1999 12 31 23 59 58 0 = .ok ticks ∧
      (ToFileNameString ticks100ns ticks).length = (formatDecimal 1999).length + 15 :=
  ⟨by decide, by decide,
    (C13_file_name_text ticks100ns (by decide) 1999 12 31 23 59 58 0 (by decide)).1.elim
      (fun t ht => ⟨t, ht.1, ht.2.2.1⟩)⟩

/-- C13 as stated fails for years before 1000: the instant constructed from
0005-03-05 09:07:03.000 is accepted by `Validate`, and its file name text is
"5_03_05_09_07_03", 16 characters with a 1-digit year. -/
theorem C13_year_five_not_four_digits :
    Validate 5 3 5 9 7 3 0 = .ok true ∧
    DateTime ticks100ns 5 3 5 9 7 3 0 = .ok 1317064230000000 ∧
    ToFileNameString ticks100ns 1317064230000000 = "5_03_05_09_07_03" ∧
    (ToFileNameString ticks100ns 1317064230000000).length = 16 ∧
    ¬ (ToFileNameString ticks100ns 1317064230000000).length = 19 := by
  have e : ticks100ns.TicksPerMillisecond * millisExact 5 3 5 9 7 3 0 = 1317064230000000 := by
    decide
  have ht := toFileNameString_ctor ticks100ns (by decide) 5 3 5 9 7 3 0 (by decide)
  rw [e] at ht
  have hs : ToFileNameString ticks100ns 1317064230000000 = "5_03_05_09_07_03" := by
    rw [ht]; decide
  refine ⟨by decide, by decide, hs, ?_, ?_⟩
  · rw [hs]; decide
  · rw [hs]; decide

/-! ## Day of week of arbitrary tick counts, the month table, the clock -/

theorem ticksPerDay_pos (c : Constants) (hc : c.Admissible) : 0 < c.TicksPerDay := by
  have := hc.1
  rw [ticksPerDay_eq]
  omega

/-- C14, amended. For every non-negative tick count (in particular every
non-negative signed 64-bit one) `GetDayOfWeek` returns a member of the
enumeration Monday=0..Sunday=6, the one whose value is
`floor(Ticks / TicksPerDay)` reduced modulo 7 into 0..6. -/
theorem C14_day_of_week_nonnegative (c : Constants) (hc : c.Admissible) (Ticks : Int)
    (h0 : 0 ≤ Ticks) :
    GetDayOfWeekValue c Ticks = (Ticks / c.TicksPerDay) % 7 ∧
    0 ≤ GetDayOfWeekValue c Ticks ∧ GetDayOfWeekValue c Ticks ≤ 6 ∧
    GetDayOfWeek c Ticks = DayOfWeek.ofValue ((Ticks / c.TicksPerDay) % 7) ∧
    ∃ dow, GetDayOfWeek c Ticks = some dow := by
  have hpos := ticksPerDay_pos c hc
  have hq : 0 ≤ Ticks / c.TicksPerDay := Int.ediv_nonneg h0 (le_of_lt hpos)
  have hval : GetDayOfWeekValue c Ticks = (Ticks / c.TicksPerDay) % 7 := by
    unfold GetDayOfWeekValue
    rw [Int.tdiv_eq_ediv h0 (le_of_lt hpos), Int.tmod_eq_emod hq (by omega)]
  refine ⟨hval, by omega, by omega, ?_, ?_⟩
  · unfold GetDayOfWeek; rw [hval]
  · unfold GetDayOfWeek; rw [hval]
    exact dayOfWeek_ofValue_isSome _ (by omega) (by omega)

/-- Witness for C14 at the second day after the epoch. -/
theorem C14_day_of_week_nonnegative_witness :
    ticks100ns.Admissible ∧ (0 : Int) ≤ 864000000000 ∧
    GetDayOfWeek ticks100ns 864000000000
      = DayOfWeek.ofValue ((864000000000 / ticks100ns.TicksPerDay) % 7) :=
  ⟨by decide, by decide,
    (C14_day_of_week_nonnegative ticks100ns (by decide) 864000000000 (by decide)).2.2.2.1⟩

/-- C14 as stated fails on negative tick counts: one day before the epoch (a
signed 64-bit value) the floor of `Ticks / TicksPerDay` is -1, which is 6
(Sunday) modulo 7, but line 60 computes -1 and the cast is no enumerator. -/
theorem C14_day_before_epoch_is_no_enumerator :
    IsInt64 (-864000000000) ∧
    (-864000000000 / ticks100ns.TicksPerDay) % 7 = 6 ∧
    GetDayOfWeekValue ticks100ns (-864000000000) = -1 ∧
    GetDayOfWeek ticks100ns (-864000000000) = none := by
  decide

/-- C15, amended. `DaysToMonth` is {0,31,59,90,120,151,181,212,243,273,304,334,365};
for every month m in 1..12 its entry at 0-based index m - 1, the one the
constructor reads at line 20 after `month--`, is the number of days before the
start of month m in a non-leap year (the sum of `DaysPerMonth[k]` over
1 <= k < m).  Index 0 holds the 0 of January and the last entry, index 12, is
the length 365 of a non-leap year. -/
theorem C15_days_to_month :
    DaysToMonth = [0, 31, 59, 90, 120, 151, 181, 212, 243, 273, 304, 334, 365] ∧
    (∀ m : Int, 1 ≤ m → m ≤ 12 →
      tableAt DaysToMonth (wrap32 (m - 1))
        = .ok (∑ k ∈ Finset.range (m - 1).toNat, DaysPerMonth.getD (k + 1) 0)) ∧
    tableAt DaysToMonth 0 = .ok 0 ∧
    tableAt DaysToMonth 12 = .ok (∑ k ∈ Finset.range 12, DaysPerMonth.getD (k + 1) 0) ∧
    tableAt DaysToMonth 12 = .ok 365 := by
  refine ⟨rfl, ?_, by decide, by decide, by decide⟩
  intro m h1 h2
  rw [wrap32_eq (by omega) (by omega)]
  interval_cases m <;> decide

/-- Witness for C15 at March: index 2 holds 59 = 31 + 28. -/
theorem C15_days_to_month_witness :
    tableAt DaysToMonth (wrap32 (3 - 1))
      = .ok (∑ k ∈ Finset.range ((3 : Int) - 1).toNat, DaysPerMonth.getD (k + 1) 0) :=
  C15_days_to_month.2.1 3 (by decide) (by decide)

/-- C15 as stated fails at m = 1: the entry at 1-based index 1 is 31, while no
days precede January (the sum over 1 <= k < 1 is 0); and index 0 is not unused,
it is the entry the constructor reads for January. -/
theorem C15_index_one_is_not_january :
    tableAt DaysToMonth 1 = .ok 31 ∧
    (∑ k ∈ Finset.range ((1 : Int) - 1).toNat, DaysPerMonth.getD (k + 1) 0) = 0 ∧
    tableAt DaysToMonth 1
      ≠ .ok (∑ k ∈ Finset.range ((1 : Int) - 1).toNat, DaysPerMonth.getD (k + 1) 0) ∧
    wrap32 (1 - 1) = 0 := by
  decide

/-- C17. `Now` and `NowUTC` ignore the day of week reported by the platform
clock: two readings that agree on year, month, day, hour, minute, second and
millisecond give the same result whatever their `dayOfWeek`, and that result is
the one of the constructor on these seven fields. -/
theorem C17_now_ignores_day_of_week (c : Constants) (r1 r2 : ClockReading)
    (hy : r1.year = r2.year) (hm : r1.month = r2.month) (hd : r1.day = r2.day)
    (hh : r1.hour = r2.hour) (hmi : r1.minute = r2.minute) (hs : r1.second = r2.second)
    (hms : r1.millisecond = r2.millisecond) :
    Now c r1 = Now c r2 ∧ NowUTC c r1 = NowUTC c r2 ∧
    Now c r1 = DateTime c r1.year r1.month r1.day r1.hour r1.minute r1.second r1.millisecond ∧
    NowUTC c r1
      = DateTime c r1.year r1.month r1.day r1.hour r1.minute r1.second r1.millisecond := by
  unfold Now NowUTC
  simp only [hy, hm, hd, hh, hmi, hs, hms, and_self]

/-- Witness for C17: 2024-03-01 08:30:15.250 reported once as day 4 and once as
day 0 of the week. -/
theorem C17_now_ignores_day_of_week_witness :
    Now ticks100ns ⟨2024, 3, 4, 1, 8, 30, 15, 250⟩
      = Now ticks100ns ⟨2024, 3, 0, 1, 8, 30, 15, 250⟩ ∧
    Now ticks100ns ⟨2024, 3, 4, 1, 8, 30, 15, 250⟩
      = DateTime ticks100ns 2024 3 1 8 30 15 250 :=
  ⟨(C17_now_ignores_day_of_week ticks100ns ⟨2024, 3, 4, 1, 8, 30, 15, 250⟩
      ⟨2024, 3, 0, 1, 8, 30, 15, 250⟩ rfl rfl rfl rfl rfl rfl rfl).1,
    (C17_now_ignores_day_of_week ticks100ns ⟨2024, 3, 4, 1, 8, 30, 15, 250⟩
      ⟨2024, 3, 0, 1, 8, 30, 15, 250⟩ rfl rfl rfl rfl rfl rfl rfl).2.2.1⟩

/-! ## GetDate on every tick count of the valid range -/

theorem last_ticks (c : Constants) (hc : c.Admissible) :
    DateTime c 9999 12 31 23 59 59 999 = .ok (c.TicksPerMillisecond * 315537897599999) := by
  have hlast : millisExact 9999 12 31 23 59 59 999 = 315537897599999 := by decide
  rw [ctor_eq c hc 9999 12 31 23 59 59 999 (by decide), hlast]

theorem days_of_ticks_bounds (c : Constants) (hc : c.Admissible) (t : Int) (h0 : 0 ≤ t)
    (h1 : t ≤ c.TicksPerMillisecond * 315537897599999) :
    0 ≤ t / c.TicksPerDay ∧ t / c.TicksPerDay ≤ 3652058 := by
  have hpos := ticksPerDay_pos c hc
  have hT := hc.1
  refine ⟨Int.ediv_nonneg h0 (le_of_lt hpos), ?_⟩
  have : t / c.TicksPerDay < 3652059 := by
    apply Int.ediv_lt_of_lt_mul hpos
    rw [ticksPerDay_eq]
    omega
  omega

theorem julianDayPlusHalf_eq (c : Constants) (hc : c.Admissible) (t : Int) (h0 : 0 ≤ t) :
    JulianDayPlusHalf c t = t / c.TicksPerDay + 1721426 := by
  unfold JulianDayPlusHalf
  rw [Int.tdiv_eq_ediv h0 (le_of_lt (ticksPerDay_pos c hc))]

theorem getDate_of_ticks (c : Constants) (hc : c.Admissible) (t : Int) (h0 : 0 ≤ t)
    (h1 : t ≤ c.TicksPerMillisecond * 315537897599999) :
    GetDate c t = dateOfDays (t / c.TicksPerDay) := by
  obtain ⟨b1, b2⟩ := days_of_ticks_bounds c hc t h0 h1
  unfold GetDate
  rw [julianDayPlusHalf_eq c hc t h0]
  exact getDate_wrapped (t / c.TicksPerDay) b1 b2

/-- C16. For every tick count `t` from 0 to the ticks of 9999-12-31 23:59:59.999,
with the Julian Day taken as the whole-day portion `t / TicksPerDay` plus
1721425.5: the value `JulianDay + 0.5` is the whole number
`t / TicksPerDay + 1721426`, it is below 2^24, the conversion to
single-precision float returns it unchanged, `GetDate` starts from
`l = t / TicksPerDay + 1721426 + 68569`, and the date `GetDate` returns depends
only on `t / TicksPerDay`. -/
theorem C16_julian_day_float_exact (c : Constants) (hc : c.Admissible) (last t : Int)
    (hlast : DateTime c 9999 12 31 23 59 59 999 = .ok last) (h0 : 0 ≤ t) (h1 : t ≤ last) :
    JulianDayPlusHalf c t = t / c.TicksPerDay + 1721426 ∧
    0 ≤ JulianDayPlusHalf c t ∧ JulianDayPlusHalf c t < 2 ^ 24 ∧
    castToFloat (JulianDayPlusHalf c t) = JulianDayPlusHalf c t ∧
    wrap32 (FloorToInt (castToFloat (JulianDayPlusHalf c t)) + 68569)
      = t / c.TicksPerDay + 1721426 + 68569 ∧
    GetDate c t = dateOfDays (t / c.TicksPerDay) ∧
    (∀ t2 : Int, 0 ≤ t2 → t2 ≤ last → t2 / c.TicksPerDay = t / c.TicksPerDay →
      GetDate c t2 = GetDate c t) := by
  rw [last_ticks c hc] at hlast
  injection hlast with hlast
  subst hlast
  obtain ⟨b1, b2⟩ := days_of_ticks_bounds c hc t h0 h1
  have hj := julianDayPlusHalf_eq c hc t h0
  have hcast : castToFloat (JulianDayPlusHalf c t) = JulianDayPlusHalf c t :=
    castToFloat_eq _ (by omega) (by omega)
  refine ⟨hj, by omega, by norm_num; omega, hcast, ?_, getDate_of_ticks c hc t h0 h1, ?_⟩
  · rw [hcast, hj]
    unfold FloorToInt
    rw [wrap32_eq (x := t / c.TicksPerDay + 1721426) (by omega) (by omega),
      wrap32_eq (by omega) (by omega)]
  · intro t2 g0 g1 he
    rw [getDate_of_ticks c hc t2 g0 g1, getDate_of_ticks c hc t h0 h1, he]

/-- Witness for C16 at the last tick of the epoch day with 10000 ticks per
millisecond. -/
theorem C16_julian_day_float_exact_witness :
    ticks100ns.Admissible ∧
    DateTime ticks100ns 9999 12 31 23 59 59 999 = .ok 3155378975999990000 ∧
    castToFloat (JulianDayPlusHalf ticks100ns 863999999999)
      = JulianDayPlusHalf ticks100ns 863999999999 ∧
    GetDate ticks100ns 863999999999 = dateOfDays (863999999999 / ticks100ns.TicksPerDay) :=
  ⟨by decide, by decide,
    (C16_julian_day_float_exact ticks100ns (by decide) 3155378975999990000 863999999999
      (by decide) (by decide) (by decide)).2.2.2.1,
    (C16_julian_day_float_exact ticks100ns (by decide) 3155378975999990000 863999999999
      (by decide) (by decide) (by decide)).2.2.2.2.2.1⟩

/-- C18. Inverse direction of the round trip: for every tick count `t` from 0 to
the ticks of 9999-12-31 23:59:59.999, `GetDate` returns a date `(y, m, d)` that
`Validate` accepts (with time 00:00:00.000), and the constructor on that date
gives `t - (t mod TicksPerDay)`, the start of the day containing `t`. -/
theorem C18_get_date_inverse (c : Constants) (hc : c.Admissible) (last t : Int)
    (hlast : DateTime c 9999 12 31 23 59 59 999 = .ok last) (h0 : 0 ≤ t) (h1 : t ≤ last) :
    ∃ y m d : Int, GetDate c t = (y, m, d) ∧ Validate y m d 0 0 0 0 = .ok true ∧
      DateTime c y m d 0 0 0 0 = .ok (t - t % c.TicksPerDay) ∧
      t % c.TicksPerDay = Int.tmod t c.TicksPerDay := by
  rw [last_ticks c hc] at hlast
  injection hlast with hlast
  subst hlast
  obtain ⟨b1, b2⟩ := days_of_ticks_bounds c hc t h0 h1
  obtain ⟨y, m, d, hy1, hy2, hm1, hm2, hd1, hd2, hD⟩ :=
    exists_date_of_days (t / c.TicksPerDay).toNat (by omega)
  rw [Int.toNat_of_nonneg b1] at hD
  have hf : ValidFields y m d 0 0 0 0 :=
    ⟨hy1, hy2, hm1, hm2, hd1, hd2, by omega, by omega, by omega, by omega, by omega,
      by omega, by omega, by omega⟩
  refine ⟨y, m, d, ?_, (validate_true_iff _ _ _ _ _ _ _).2 hf, ?_,
    (Int.tmod_eq_emod h0 (le_of_lt (ticksPerDay_pos c hc))).symm⟩
  · rw [getDate_of_ticks c hc t h0 h1, ← hD]
    exact dateOfDays_totalDaysExact y m d hm1 hm2 hd1 hd2
  · rw [ctor_eq c hc _ _ _ _ _ _ _ hf]
    congr 1
    have hdm := Int.emod_add_ediv t c.TicksPerDay
    have : c.TicksPerMillisecond * millisExact y m d 0 0 0 0
        = c.TicksPerDay * (t / c.TicksPerDay) := by
      unfold millisExact
      rw [hD, ticksPerDay_eq]
      ring
    omega

/-- Witness for C18 at one tick before 0001-01-03 with 10000 ticks per
millisecond. -/
theorem C18_get_date_inverse_witness :
    ticks100ns.Admissible ∧
    DateTime ticks100ns 9999 12 31 23 59 59 999 = .ok 3155378975999990000 ∧
    ∃ y m d : Int, GetDate ticks100ns 1727999999999 = (y, m, d) ∧
      Validate y m d 0 0 0 0 = .ok true ∧
      DateTime ticks100ns y m d 0 0 0 0
        = .ok (1727999999999 - 1727999999999 % ticks100ns.TicksPerDay) :=
  ⟨by decide, by decide,
    (C18_get_date_inverse ticks100ns (by decide) 3155378975999990000 1727999999999
      (by decide) (by decide) (by decide)).elim
      (fun y hy => hy.elim (fun m hm => hm.elim (fun d hd => ⟨y, m, d, hd.1, hd.2.1, hd.2.2.1⟩)))⟩

/-! ## Absence of overflow -/

theorem isInt64_scaled (c : Constants) (hc : c.Admissible) (P : Int) (h1 : 0 ≤ P)
    (h2 : P < 315537897600000) : IsInt64 (c.TicksPerMillisecond * P) := by
  obtain ⟨hpos, hfit⟩ := hc
  simp only [Constants.TicksPerDay, Constants.TicksPerHour, Constants.TicksPerMinute,
    Constants.TicksPerSecond] at hfit
  have hle : c.TicksPerMillisecond * P ≤ c.TicksPerMillisecond * 315537897599999 :=
    Int.mul_le_mul_of_nonneg_left (by omega) (le_of_lt hpos)
  have h0 : 0 ≤ c.TicksPerMillisecond * P := Int.mul_nonneg (le_of_lt hpos) h1
  unfold IsInt64
  omega

/-- C19. No integer overflow in the valid range.  For fields accepted by
`Validate`: every `int32` intermediate of lines 17-20 of the constructor, every
`int64` product and partial sum of lines 21-25, and, with `days` the whole-day
count of the constructed instant, every `int32` intermediate of lines 34-43 of
`GetDate` lies in the range of its type when computed in exact integer
arithmetic; the wrapped machine arithmetic therefore returns the exact values. -/
theorem C19_no_overflow (c : Constants) (hc : c.Admissible)
    (year month day hour minute second millisecond : Int)
    (hv : Validate year month day hour minute second millisecond = .ok true) :
    (let y := year - 1
     let toMonth := DaysToMonth.getD (month - 1).toNat 0
     let sum := y * 365 + y / 4 - y / 100 + y / 400 + toMonth + day - 1
     IsInt32 y ∧ IsInt32 (month - 1) ∧ IsInt32 (y * 365) ∧ IsInt32 (y / 4) ∧
     IsInt32 (y * 365 + y / 4) ∧ IsInt32 (y / 100) ∧ IsInt32 (y * 365 + y / 4 - y / 100) ∧
     IsInt32 (y / 400) ∧ IsInt32 (y * 365 + y / 4 - y / 100 + y / 400) ∧
     IsInt32 (y * 365 + y / 4 - y / 100 + y / 400 + toMonth) ∧
     IsInt32 (y * 365 + y / 4 - y / 100 + y / 400 + toMonth + day) ∧ IsInt32 sum ∧
     IsInt32 (1 + sum) ∧ IsInt32 (totalDaysExact year month day)) ∧
    (let days := totalDaysExact year month day
     IsInt64 (days * c.TicksPerDay) ∧ IsInt64 (hour * c.TicksPerHour) ∧
     IsInt64 (minute * c.TicksPerMinute) ∧ IsInt64 (second * c.TicksPerSecond) ∧
     IsInt64 (millisecond * c.TicksPerMillisecond) ∧
     IsInt64 (days * c.TicksPerDay + hour * c.TicksPerHour) ∧
     IsInt64 (days * c.TicksPerDay + hour * c.TicksPerHour + minute * c.TicksPerMinute) ∧
     IsInt64 (days * c.TicksPerDay + hour * c.TicksPerHour + minute * c.TicksPerMinute
       + second * c.TicksPerSecond) ∧
     IsInt64 (days * c.TicksPerDay + hour * c.TicksPerHour + minute * c.TicksPerMinute
       + second * c.TicksPerSecond + millisecond * c.TicksPerMillisecond) ∧
     DateTime c year month day hour minute second millisecond
       = .ok (days * c.TicksPerDay + hour * c.TicksPerHour + minute * c.TicksPerMinute
         + second * c.TicksPerSecond + millisecond * c.TicksPerMillisecond)) ∧
    (∃ ticks, DateTime c year month day hour minute second millisecond = .ok ticks ∧
      ticks / c.TicksPerDay = totalDaysExact year month day ∧
      GetDate c ticks = dateOfDays (totalDaysExact year month day)) ∧
    (let l := totalDaysExact year month day + 1721426 + 68569
     let n := 4 * l / 146097
     let l1 := l - (146097 * n + 3) / 4
     let i := 4000 * (l1 + 1) / 1461001
     let l2 := l1 - 1461 * i / 4 + 31
     let j := 80 * l2 / 2447
     let l3 := j / 11
     IsInt32 (totalDaysExact year month day + 1721426) ∧ IsInt32 l ∧ IsInt32 (4 * l) ∧
     IsInt32 n ∧ IsInt32 (146097 * n) ∧ IsInt32 (146097 * n + 3) ∧
     IsInt32 ((146097 * n + 3) / 4) ∧ IsInt32 l1 ∧ IsInt32 (l1 + 1) ∧
     IsInt32 (4000 * (l1 + 1)) ∧ IsInt32 i ∧ IsInt32 (1461 * i) ∧ IsInt32 (1461 * i / 4) ∧
     IsInt32 (l1 - 1461 * i / 4) ∧ IsInt32 l2 ∧ IsInt32 (80 * l2) ∧ IsInt32 j ∧
     IsInt32 (2447 * j) ∧ IsInt32 (2447 * j / 80) ∧ IsInt32 (l2 - 2447 * j / 80) ∧
     IsInt32 l3 ∧ IsInt32 (j + 2) ∧ IsInt32 (12 * l3) ∧ IsInt32 (j + 2 - 12 * l3) ∧
     IsInt32 (n - 49) ∧ IsInt32 (100 * (n - 49)) ∧ IsInt32 (100 * (n - 49) + i) ∧
     IsInt32 (100 * (n - 49) + i + l3)) := by
  have hf := (validate_true_iff _ _ _ _ _ _ _).1 hv
  obtain ⟨hy1, hy2, hm1, hm2, hd1, hd2, hh1, hh2, hmi1, hmi2, hs1, hs2, hms1, hms2⟩ := id hf
  have hb := totalDaysExact_bounds year month day hy1 hy2 hm1 hm2 hd1 hd2
  obtain ⟨hM1, hM2, hM3⟩ := millisExact_bounds _ _ _ _ _ _ _ hf
  have hd3 : day ≤ 31 := by
    have := daysInMonth_bounds year month (DaysInMonthValue year month)
      (by unfold DaysInMonthValue; rw [daysInMonth_of_range year month hm1 hm2])
    omega
  have ht : 0 ≤ DaysToMonth.getD (month - 1).toNat 0 ∧
      DaysToMonth.getD (month - 1).toNat 0 ≤ 334 := by
    interval_cases month <;> decide
  have e1 : totalDaysExact year month day * c.TicksPerDay
      = c.TicksPerMillisecond * (totalDaysExact year month day * 86400000) := by
    rw [ticksPerDay_eq]; ring
  have e2 : hour * c.TicksPerHour = c.TicksPerMillisecond * (hour * 3600000) := by
    rw [ticksPerHour_eq]; ring
  have e3 : minute * c.TicksPerMinute = c.TicksPerMillisecond * (minute * 60000) := by
    rw [ticksPerMinute_eq]; ring
  have e4 : second * c.TicksPerSecond = c.TicksPerMillisecond * (second * 1000) := by
    rw [ticksPerSecond_eq]; ring
  have e5 : millisecond * c.TicksPerMillisecond = c.TicksPerMillisecond * millisecond := by
    ring
  have hexact : totalDaysExact year month day * c.TicksPerDay + hour * c.TicksPerHour
      + minute * c.TicksPerMinute + second * c.TicksPerSecond
      + millisecond * c.TicksPerMillisecond
        = c.TicksPerMillisecond * millisExact year month day hour minute second millisecond := by
    rw [e1, e2, e3, e4, e5]; unfold millisExact; ring
  refine ⟨?_, ?_, ?_, ?_⟩
  · have hbb := hb
    unfold totalDaysExact at hbb ⊢
    generalize DaysToMonth.getD (month - 1).toNat 0 = t at ht hbb ⊢
    simp only [IsInt32]
    split at hbb <;> omega
  · simp only
    rw [hexact, e1, e2, e3, e4, e5, ← Int.mul_add, ← Int.mul_add, ← Int.mul_add]
    exact ⟨isInt64_scaled c hc _ (by omega) (by omega),
      isInt64_scaled c hc _ (by omega) (by omega), isInt64_scaled c hc _ (by omega) (by omega),
      isInt64_scaled c hc _ (by omega) (by omega), isInt64_scaled c hc _ (by omega) (by omega),
      isInt64_scaled c hc _ (by omega) (by omega), isInt64_scaled c hc _ (by omega) (by omega),
      isInt64_scaled c hc _ (by omega) (by omega), isInt64_scaled c hc _ hM1 hM2,
      ctor_eq c hc _ _ _ _ _ _ _ hf⟩
  · refine ⟨_, ctor_eq c hc _ _ _ _ _ _ _ hf, ?_, ?_⟩
    · rw [ticksPerDay_eq, Int.mul_ediv_mul_of_pos _ _ hc.1, hM3]
    · rw [getDate_eq c hc _ hM1 hM2, hM3]
  · generalize totalDaysExact year month day = D at hb
    simp only [IsInt32]
    omega

/-- Witness for C19 at 9999-12-31 23:59:59.999 with 10000 ticks per millisecond. -/
theorem C19_no_overflow_witness :
    ticks100ns.Admissible ∧ Validate 9999 12 31 23 59 59 999 = .ok true ∧
    ∃ ticks, DateTime ticks100ns 9999 12 31 23 59 59 999 = .ok ticks ∧
      ticks / ticks100ns.TicksPerDay = totalDaysExact 9999 12 31 ∧
      GetDate ticks100ns ticks = dateOfDays (totalDaysExact 9999 12 31) :=
  ⟨by decide, by decide,
    (C19_no_overflow ticks100ns (by decide) 9999 12 31 23 59 59 999 (by decide)).2.2.1⟩

/-! ## Range of the day of year -/

theorem daysInYear_eq_leapDay (y : Int) : DaysInYear y = 365 + leapDay y := by
  unfold DaysInYear leapDay
  by_cases h : IsLeapYear y = true
  · simp [h]
  · simp [h]

theorem sum_daysInMonth_eq_monthStart (y m : Int) (hm1 : 1 ≤ m) (hm2 : m ≤ 12) :
    (∑ k ∈ Finset.range (m - 1).toNat, DaysInMonthValue y (k + 1)) = monthStart (leapDay y) m := by
  have h1 := sum_daysInMonth y m hm1 hm2
  have h2 := totalDaysExact_eq_start y m 1 hm1 hm2
  unfold totalDaysExact yearStart at h2
  omega

/-- C20. For fields accepted by `Validate`, `GetDayOfYear` of the constructed
instant lies in 1..`DaysInYear(year)`; it is 1 exactly for January 1 and
`DaysInYear(year)` exactly for December 31; and it is 1 plus the number of whole
days between the ticks of `DateTime(year,1,1)` and the ticks of the instant. -/
theorem C20_day_of_year_range (c : Constants) (hc : c.Admissible)
    (year month day hour minute second millisecond : Int)
    (hv : Validate year month day hour minute second millisecond = .ok true) :
    ∃ ticks first dayOfYear : Int,
      DateTime c year month day hour minute second millisecond = .ok ticks ∧
      DateTime c year 1 1 0 0 0 0 = .ok first ∧
      GetDayOfYear c ticks = .ok dayOfYear ∧
      1 ≤ dayOfYear ∧ dayOfYear ≤ DaysInYear year ∧
      (dayOfYear = 1 ↔ (month = 1 ∧ day = 1)) ∧
      (dayOfYear = DaysInYear year ↔ (month = 12 ∧ day = 31)) ∧
      dayOfYear = 1 + (ticks - first) / c.TicksPerDay := by
  have hf := (validate_true_iff _ _ _ _ _ _ _).1 hv
  obtain ⟨hy1, hy2, hm1, hm2, hd1, hd2, hh1, hh2, hmi1, hmi2, hs1, hs2, hms1, hms2⟩ := id hf
  have hfirst : ValidFields year 1 1 0 0 0 0 := by
    refine ⟨hy1, hy2, by omega, by omega, by omega, ?_, by omega, by omega, by omega,
      by omega, by omega, by omega, by omega, by omega⟩
    rw [daysInMonthValue_of_range year 1 (by omega) (by omega)]
    simp
  have hL : 0 ≤ leapDay year ∧ leapDay year ≤ 1 := by
    rcases leapDay_eq year with ⟨h, -⟩ | ⟨h, -⟩ <;> omega
  have hd3 : day ≤ 31 := by
    have := daysInMonth_bounds year month (DaysInMonthValue year month)
      (by unfold DaysInMonthValue; rw [daysInMonth_of_range year month hm1 hm2])
    omega
  have hdoy : GetDayOfYear c (c.TicksPerMillisecond *
      millisExact year month day hour minute second millisecond)
        = .ok (day + monthStart (leapDay year) month) := by
    unfold GetDayOfYear
    rw [getDate_ctor c hc _ _ _ _ _ _ _ hf]
    simp only
    rw [dayOfYearLoop_eq year (month - 1).toNat 1 day (by omega) (by omega) (by omega)
      (by omega), ← sum_daysInMonth_eq_monthStart year month hm1 hm2]
    congr 2
    apply Finset.sum_congr rfl
    intro k _
    rw [Int.add_comm]
  have hdim := daysInMonthValue_eq_start year month hm1 hm2
  have b0 := monthStart_bounds (leapDay year) month hL.1 hL.2 hm1 (by omega)
  have b1 := monthStart_bounds (leapDay year) (month + 1) hL.1 hL.2 (by omega) (by omega)
  have hs1 := totalDaysExact_eq_start year month day hm1 hm2
  have hs2 := totalDaysExact_eq_start year 1 1 (by omega) (by omega)
  obtain ⟨hM1, hM2, hM3⟩ := millisExact_bounds _ _ _ _ _ _ _ hf
  refine ⟨_, _, _, ctor_eq c hc _ _ _ _ _ _ _ hf, ctor_eq c hc _ _ _ _ _ _ _ hfirst, hdoy,
    by omega, by rw [daysInYear_eq_leapDay]; omega, ?_, ?_, ?_⟩
  · constructor
    · intro h
      have hm : month = 1 := by
        by_contra hne
        have := monthStart_mono (leapDay year) 2 month hL.1 (by omega) (by omega)
        have e : monthStart (leapDay year) 2 = 31 := by unfold monthStart; simp
        omega
      exact ⟨hm, by subst hm; omega⟩
    · rintro ⟨rfl, rfl⟩
      omega
  · rw [daysInYear_eq_leapDay]
    constructor
    · intro h
      have hm : month = 12 := by
        by_contra hne
        have := monthStart_mono (leapDay year) (month + 1) 12 hL.1 (by omega) (by omega)
        have e : monthStart (leapDay year) 12 = 334 + leapDay year := by
          unfold monthStart; simp
        omega
      subst hm
      have e : monthStart (leapDay year) 12 = 334 + leapDay year := by
        unfold monthStart; simp
      exact ⟨rfl, by omega⟩
    · rintro ⟨rfl, rfl⟩
      have e : monthStart (leapDay year) 12 = 334 + leapDay year := by
        unfold monthStart; simp
      omega
  · have e : c.TicksPerMillisecond * millisExact year month day hour minute second millisecond
        - c.TicksPerMillisecond * millisExact year 1 1 0 0 0 0
          = c.TicksPerMillisecond * (millisExact year month day hour minute second millisecond
            - millisExact year 1 1 0 0 0 0) := by ring
    rw [e, ticksPerDay_eq, Int.mul_ediv_mul_of_pos _ _ hc.1]
    unfold millisExact
    rw [hs1, hs2]
    have z := b0.2.2.1
    generalize yearStart year = Y
    generalize monthStart (leapDay year) month = S at b0 ⊢
    omega

/-- Witness for C20 at 2024-12-31 12:00:00.000 with 10000 ticks per millisecond. -/
theorem C20_day_of_year_range_witness :
    ticks100ns.Admissible ∧ Validate 2024 12 31 12 0 0 0 = .ok true ∧
    ∃ ticks first dayOfYear : Int,
      DateTime ticks100ns 2024 12 31 12 0 0 0 = .ok ticks ∧
      DateTime ticks100ns 2024 1 1 0 0 0 0 = .ok first ∧
      GetDayOfYear ticks100ns ticks = .ok dayOfYear ∧
      1 ≤ dayOfYear ∧ dayOfYear ≤ DaysInYear 2024 :=
  ⟨by decide, by decide,
    (C20_day_of_year_range ticks100ns (by decide) 2024 12 31 12 0 0 0 (by decide)).elim
      (fun t ht => ht.elim (fun f hf => hf.elim (fun n hn =>
        ⟨t, f, n, hn.1, hn.2.1, hn.2.2.1, hn.2.2.2.1, hn.2.2.2.2.1⟩)))⟩

end DateTime
